import Mathlib

/-!
# Verification of the avif-parse AVIF container parser

A shallow embedding of the core of `src/lib.rs` and `src/obu.rs`:
byte streams are `List Nat` (each element a byte value; machine bytes are
taken modulo 256 where a numeric value is assembled), bounded readers are a
pair of a remaining-byte budget (`Take::limit`) and the bytes actually
available, and every fallible parsing function returns `Except Error α`,
mirroring the crate's `Result` alias.
-/

namespace Avif

/-- The error taxonomy of the parser (`enum Error`, src/lib.rs lines 128-141).
`Io`, `NoMoov` and `OutOfMemory` are omitted: `Io`/`OutOfMemory` arise only
from the ambient environment (underlying I/O failure, allocation failure),
and `NoMoov` is never produced on the AVIF path. -/
inductive Error where
  | invalidData (msg : String)
  | unsupported (msg : String)
  | unexpectedEOF
  deriving Repr, DecidableEq

/-- `true` exactly on the `InvalidData` ("data error") kind. -/
def Error.isInvalidData : Error → Bool
  | .invalidData _ => true
  | _ => false

/-- `true` exactly on the `Unsupported` kind. -/
def Error.isUnsupported : Error → Bool
  | .unsupported _ => true
  | _ => false

/-- `Result` alias of the crate (src/lib.rs line 209). -/
abbrev Result (α : Type) := Except Error α

/-- `true` iff the computation failed with an `Unsupported` error. -/
def failedUnsupported {α : Type} : Result α → Bool
  | .error e => e.isUnsupported
  | .ok _ => false

/-- A bounded byte reader. `limit` is the `Take` budget (how many bytes the
reader is allowed to hand out); `data` is what the underlying stream can
actually deliver, which may be shorter than `limit` when the input is
truncated. A top-level reader over a byte list `bs` is `⟨bs.length, bs⟩`. -/
structure BStream where
  limit : Nat
  data : List Nat
  deriving Repr, DecidableEq

/-- Wrap a complete byte list as a reader (the `OffsetReader` over the input). -/
def ofBytes (bs : List Nat) : BStream := ⟨bs.length, bs⟩

/-- `read_exact` of `n` bytes through a `Take`: succeeds iff both the budget
and the available data suffice; any shortfall (including a partial read) is
reported as `UnexpectedEOF` (std `read_exact` + `Take` semantics, unified by
`From<std::io::Error> for Error`, src/lib.rs lines 169-176). -/
def readBytes (n : Nat) (s : BStream) : Result (List Nat × BStream) :=
  if n ≤ s.limit ∧ n ≤ s.data.length then
    .ok (s.data.take n, ⟨s.limit - n, s.data.drop n⟩)
  else
    .error .unexpectedEOF

/-- Big-endian value of a byte list; each element is reduced mod 256 because
the machine type of a stream element is `u8`. -/
def beVal (bs : List Nat) : Nat := bs.foldl (fun a b => 256 * a + b % 256) 0

/-- `be_u16` (src/lib.rs lines 1329-1331). -/
def be_u16 (s : BStream) : Result (Nat × BStream) := do
  let (bs, s) ← readBytes 2 s
  .ok (beVal bs, s)

/-- `be_u32` (src/lib.rs lines 1333-1335). -/
def be_u32 (s : BStream) : Result (Nat × BStream) := do
  let (bs, s) ← readBytes 4 s
  .ok (beVal bs, s)

/-- `be_u64` (src/lib.rs lines 1337-1339). -/
def be_u64 (s : BStream) : Result (Nat × BStream) := do
  let (bs, s) ← readBytes 8 s
  .ok (beVal bs, s)

/-- The box-type tag "ftyp" as its big-endian 32-bit value. Box types are
modelled by their 4-byte tag value (the `BoxType` enum of the crate's
`boxes` module is a bijective renaming of known tag values). -/
def ftypTag : Nat := 0x66747970

/-- The tag "uuid". -/
def uuidTag : Nat := 0x75756964

/-- The brand "avif". -/
def avifTag : Nat := 0x61766966

/-- The brand "avis". -/
def avisTag : Nat := 0x61766973

/-- The reference type "auxl". -/
def auxlTag : Nat := 0x6175786C

/-- The reference type "prem". -/
def premTag : Nat := 0x7072656D

/-- `BoxHeader` (src/lib.rs lines 220-230); `name` is the tag value. -/
structure BoxHeader where
  name : Nat
  size : Nat
  offset : Nat
  uuid : Option (List Nat)
  deriving Repr, DecidableEq

/-- The uuid tail of `read_box_header` (src/lib.rs lines 642-659): when the
box is a `uuid` box and the declared size leaves room, a single `read` call
fetches up to 16 bytes (it returns `min 16` of what is available within the
budget); a short read drops the uuid silently. The final
`assert!(offset <= size)` of the source holds for every input here: `offset`
only exceeds the minimal header size on the uuid path, which is guarded by
`offset + 16 ≤ size`. -/
def finishHeader (name size offset : Nat) (s : BStream) : Result (BoxHeader × BStream) :=
  if name = uuidTag then
    if offset + 16 ≤ size then
      let count := min 16 (min s.limit s.data.length)
      let s' : BStream := ⟨s.limit - count, s.data.drop count⟩
      if count = 16 then
        .ok (⟨name, size, offset + count, some (s.data.take count)⟩, s')
      else
        .ok (⟨name, size, offset + count, none⟩, s')
    else
      .ok (⟨name, size, offset, none⟩, s)
  else
    .ok (⟨name, size, offset, none⟩, s)

/-- `read_box_header` (src/lib.rs lines 618-662). -/
def read_box_header (s : BStream) : Result (BoxHeader × BStream) := do
  let (size32, s) ← be_u32 s
  let (name, s) ← be_u32 s
  if size32 = 0 then
    .error (.unsupported "unknown sized box")
  else if size32 = 1 then do
    let (size64, s) ← be_u64 s
    if size64 < 16 then
      .error (.invalidData "malformed wide size")
    else
      finishHeader name size64 16 s
  else if size32 < 8 then
    .error (.invalidData "malformed size")
  else
    finishHeader name size32 8 s

/-- `BoxIter::next_box` (src/lib.rs lines 562-572): reads one header and
returns it with the box content (a sub-reader whose budget is
`size - offset`, its available data additionally capped by the parent) and
the parent stream positioned after the content (every caller either consumes
the whole budget or aborts the parse, so the position after the box is
`size - offset` bytes further). An `UnexpectedEOF` raised while reading the
header — whether zero or some header bytes were available — is mapped to
`none`, i.e. reported as clean end of input. -/
def next_box (s : BStream) : Result (Option (BoxHeader × BStream × BStream)) :=
  match read_box_header s with
  | .ok (h, s') =>
      let n := h.size - h.offset
      .ok (some (h, ⟨n, s'.data.take (min n s'.limit)⟩, ⟨s'.limit - n, s'.data.drop n⟩))
  | .error .unexpectedEOF => .ok none
  | .error e => .error e

/-- `FileTypeBox` (src/lib.rs lines 240-244). -/
structure FileTypeBox where
  major_brand : Nat
  minor_version : Nat
  compatible_brands : List Nat
  deriving Repr, DecidableEq

/-- The brand-reading loop of `read_ftyp`. -/
def readBrands : Nat → BStream → Result (List Nat × BStream)
  | 0, s => .ok ([], s)
  | n + 1, s => do
    let (b, s) ← be_u32 s
    let (rest, s) ← readBrands n s
    .ok (b :: rest, s)

/-- `read_ftyp` (src/lib.rs lines 1292-1310); `bytes_left` is the remaining
budget of the box sub-reader. -/
def read_ftyp (s : BStream) : Result FileTypeBox := do
  let (major, s) ← be_u32 s
  let (minor, s) ← be_u32 s
  let bytes_left := s.limit
  if bytes_left % 4 ≠ 0 then
    .error (.invalidData "invalid ftyp size")
  else do
    let (brands, _) ← readBrands (bytes_left / 4) s
    .ok ⟨major, minor, brands⟩

/-- The 'ftyp' stage of `read_avif` (src/lib.rs lines 721-735): read the
first top-level box and validate it. When `next_box` reports end of input
the source simply falls through to the box loop, hence `ok`. -/
def read_avif_ftyp_stage (bytes : List Nat) : Result Unit := do
  match ← next_box (ofBytes bytes) with
  | none => .ok ()
  | some (h, content, _rest) =>
    if h.name = ftypTag then do
      let ftyp ← read_ftyp content
      if ftyp.major_brand ≠ avifTag then
        if ftyp.major_brand = avisTag then
          .error (.unsupported "Animated AVIF is not supported. Please use real AV1 videos instead.")
        else
          .error (.invalidData "ftyp must be 'avif'")
      else
        .ok ()
    else
      .error (.invalidData "'ftyp' box must occur first")

/-- `read_u8` on a bounded reader. -/
def read_u8 (s : BStream) : Result (Nat × BStream) := do
  let (bs, s) ← readBytes 1 s
  .ok (beVal bs, s)

/-- `read_fullbox_extra` (src/lib.rs lines 665-674): version byte plus a
24-bit flags field. -/
def read_fullbox_extra (s : BStream) : Result ((Nat × Nat) × BStream) := do
  let (version, s) ← read_u8 s
  let (flags_a, s) ← read_u8 s
  let (flags_b, s) ← read_u8 s
  let (flags_c, s) ← read_u8 s
  .ok ((version, flags_a * 65536 + flags_b * 256 + flags_c), s)

/-- `read_fullbox_version_no_flags` (src/lib.rs lines 677-685). -/
def read_fullbox_version_no_flags (s : BStream) : Result (Nat × BStream) := do
  let ((version, flags), s) ← read_fullbox_extra s
  if flags ≠ 0 then
    .error (.unsupported "expected flags to be 0")
  else
    .ok (version, s)

/-- The `bitreader::BitReader` cursor: the remaining bits, big-endian bit
order. -/
structure Bits where
  bits : List Bool
  deriving Repr, DecidableEq

/-- The eight bits of a byte, most significant first. -/
def bitsOfByte (b : Nat) : List Bool :=
  [b.testBit 7, b.testBit 6, b.testBit 5, b.testBit 4,
   b.testBit 3, b.testBit 2, b.testBit 1, b.testBit 0]

/-- `BitReader::new` over a byte buffer. -/
def mkBits (bs : List Nat) : Bits := ⟨(bs.map bitsOfByte).flatten⟩

/-- Big-endian value of a bit list. -/
def bitsVal (bs : List Bool) : Nat := bs.foldl (fun a b => 2 * a + cond b 1 0) 0

/-- `BitReader::read_uXX(n)`: take `n` bits; a shortfall is
`BitReaderError::NotEnoughData`, which `From<bitreader::BitReaderError>`
(src/lib.rs lines 159-167) maps to `InvalidData "truncated bits"`. The
`TooManyBitsForType` variant is input-independent (every call site requests
at most as many bits as the result type holds), so it does not occur. -/
def readBits (n : Nat) (b : Bits) : Result (Nat × Bits) :=
  if n ≤ b.bits.length then
    .ok (bitsVal (b.bits.take n), ⟨b.bits.drop n⟩)
  else
    .error (.invalidData "truncated bits")

/-- `BitReader::read_bool`. -/
def readBool (b : Bits) : Result (Bool × Bits) := do
  let (v, b) ← readBits 1 b
  .ok (v == 1, b)

/-- `IlocVersion` (src/lib.rs lines 451-456). -/
inductive IlocVersion where
  | zero
  | one
  | two
  deriving Repr, DecidableEq

/-- `TryFrom<u8> for IlocVersion` (src/lib.rs lines 458-469). -/
def ilocVersionOfNat : Nat → Result IlocVersion
  | 0 => .ok .zero
  | 1 => .ok .one
  | 2 => .ok .two
  | _ => .error (.unsupported "unsupported version in 'iloc' box")

/-- `IlocFieldSize` (src/lib.rs lines 421-426). -/
inductive IlocFieldSize where
  | zero
  | four
  | eight
  deriving Repr, DecidableEq

/-- `IlocFieldSize::to_bits` (src/lib.rs lines 429-435). -/
def IlocFieldSize.to_bits : IlocFieldSize → Nat
  | .zero => 0
  | .four => 32
  | .eight => 64

/-- `TryFrom<u8> for IlocFieldSize` (src/lib.rs lines 438-449). -/
def ilocFieldSizeOfNat : Nat → Result IlocFieldSize
  | 0 => .ok .zero
  | 4 => .ok .four
  | 8 => .ok .eight
  | _ => .error (.invalidData "value must be in the set \x7b0, 4, 8\x7d")

/-- `ConstructionMethod` (src/lib.rs lines 483-489). -/
inductive ConstructionMethod where
  | File
  | Idat
  | Item
  deriving Repr, DecidableEq

/-- `ExtentRange` (src/lib.rs lines 498-502): a `[start, stop)` range or a
`[start, end-of-source)` range. -/
inductive ExtentRange where
  | WithLength (start stop : Nat)
  | ToEnd (start : Nat)
  deriving Repr, DecidableEq

/-- `ExtentRange::start` (src/lib.rs lines 504-511). -/
def ExtentRange.start : ExtentRange → Nat
  | .WithLength s _ => s
  | .ToEnd s => s

/-- `ItemLocationBoxExtent` (src/lib.rs lines 493-496). -/
structure ItemLocationBoxExtent where
  extent_range : ExtentRange
  deriving Repr, DecidableEq

/-- `ItemLocationBoxItem` (src/lib.rs lines 475-481). -/
structure ItemLocationBoxItem where
  item_id : Nat
  construction_method : ConstructionMethod
  extents : List ItemLocationBoxExtent
  deriving Repr, DecidableEq

/-- The extent-range computation of `read_iloc` (src/lib.rs lines
1260-1275): `start = base_offset + extent_offset` and
`end = start + extent_length` as u64 `checked_add`s whose overflow (an
untruncated sum ≥ 2^64) is a data error; a zero `extent_length` means "to
the end of the source". -/
def mkExtentRange (base_offset extent_offset extent_length : Nat) : Result ExtentRange :=
  if 2 ^ 64 ≤ base_offset + extent_offset then
    .error (.invalidData "offset calculation overflow")
  else if extent_length = 0 then
    .ok (.ToEnd (base_offset + extent_offset))
  else if 2 ^ 64 ≤ base_offset + extent_offset + extent_length then
    .error (.invalidData "end calculation overflow")
  else
    .ok (.WithLength (base_offset + extent_offset) (base_offset + extent_offset + extent_length))

/-- The per-extent loop of `read_iloc` (src/lib.rs lines 1246-1278): an
optional (discarded) extent index, then the extent offset and length at the
selected bit widths, combined by `mkExtentRange`. -/
def readIlocExtents (index_size : Option IlocFieldSize)
    (offset_size length_size : IlocFieldSize) (base_offset : Nat) :
    Nat → Bits → Result (List ItemLocationBoxExtent × Bits)
  | 0, b => .ok ([], b)
  | n + 1, b => do
    let b ← match index_size with
      | none | some .zero => pure b
      | some sz => do
          let (_extent_index, b) ← readBits sz.to_bits b
          pure b
    let (extent_offset, b) ← readBits offset_size.to_bits b
    let (extent_length, b) ← readBits length_size.to_bits b
    let extent_range ← mkExtentRange base_offset extent_offset extent_length
    let (rest, b) ← readIlocExtents index_size offset_size length_size base_offset n b
    .ok (⟨extent_range⟩ :: rest, b)

/-- The per-item loop of `read_iloc` (src/lib.rs lines 1207-1281). -/
def readIlocItems (version : IlocVersion)
    (offset_size length_size base_offset_size : IlocFieldSize)
    (index_size : Option IlocFieldSize) :
    Nat → Bits → Result (List ItemLocationBoxItem × Bits)
  | 0, b => .ok ([], b)
  | n + 1, b => do
    let (item_id, b) ← match version with
      | .zero | .one => readBits 16 b
      | .two => readBits 32 b
    let (construction_method, b) ← match version with
      | .zero => pure (ConstructionMethod.File, b)
      | .one | .two => do
          let (_reserved, b) ← readBits 12 b
          let (m, b) ← readBits 4 b
          match m with
          | 0 => pure (ConstructionMethod.File, b)
          | 1 => pure (ConstructionMethod.Idat, b)
          | 2 => .error (.unsupported "construction_method 'item_offset' is not supported")
          | _ => .error (.invalidData "construction_method is taken from the set 0, 1 or 2 per ISO 14496-12:2015 § 8.11.3.3")
    let (data_reference_index, b) ← readBits 16 b
    if data_reference_index ≠ 0 then
      .error (.unsupported "external file references (iloc.data_reference_index != 0) are not supported")
    else do
      let (base_offset, b) ← readBits base_offset_size.to_bits b
      let (extent_count, b) ← readBits 16 b
      if extent_count < 1 then
        .error (.invalidData "extent_count must have a value 1 or greater per ISO 14496-12:2015 § 8.11.3.3")
      else do
        let (extents, b) ← readIlocExtents index_size offset_size length_size base_offset extent_count b
        let (rest, b) ← readIlocItems version offset_size length_size base_offset_size index_size n b
        .ok (⟨item_id, construction_method, extents⟩ :: rest, b)

/-- `read_iloc` (src/lib.rs lines 1182-1288): a full-box version with zero
flags, then the remaining content (`read_into_try_vec` collects at most
`limit` bytes of what is available) parsed as a bit-level structure that
must be consumed exactly. -/
def read_iloc (s : BStream) : Result (List ItemLocationBoxItem) := do
  let (v, s) ← read_fullbox_version_no_flags s
  let version ← ilocVersionOfNat v
  let b := mkBits (s.data.take s.limit)
  let (osz, b) ← readBits 4 b
  let offset_size ← ilocFieldSizeOfNat osz
  let (lsz, b) ← readBits 4 b
  let length_size ← ilocFieldSizeOfNat lsz
  let (bsz, b) ← readBits 4 b
  let base_offset_size ← ilocFieldSizeOfNat bsz
  let (index_size, b) ← match version with
    | .one | .two => do
        let (isz, b) ← readBits 4 b
        let index_size ← ilocFieldSizeOfNat isz
        pure (some index_size, b)
    | .zero => do
        let (_reserved, b) ← readBits 4 b
        pure ((none : Option IlocFieldSize), b)
  let (item_count, b) ← match version with
    | .zero | .one => readBits 16 b
    | .two => readBits 32 b
  let (items, b) ← readIlocItems version offset_size length_size base_offset_size index_size item_count b
  if b.bits.length = 0 then
    .ok items
  else
    .error (.invalidData "invalid iloc size")

/-- `MediaDataBox` (src/lib.rs lines 339-343). -/
structure MediaDataBox where
  offset : Nat
  data : List Nat
  deriving Repr, DecidableEq

/-- `MediaDataBox::contains_extent` (src/lib.rs lines 349-356). -/
def contains_extent (m : MediaDataBox) (extent : ExtentRange) : Bool :=
  if m.offset ≤ extent.start then
    extent.start - m.offset < m.data.length
  else
    false

/-- `MediaDataBox::matches_extent` (src/lib.rs lines 359-374). On the
`WithLength` arm the source compares `offset + data.len()` via a u64
`checked_add`; an overflowing sum yields `false` there, which agrees with
comparing the untruncated sum against the u64 value `stop`. -/
def matches_extent (m : MediaDataBox) (extent : ExtentRange) : Bool :=
  if m.offset = extent.start then
    match extent with
    | .WithLength _ stop => m.offset + m.data.length = stop
    | .ToEnd _ => true
  else
    false

/-- The byte range `MediaDataBox::read_extent` (src/lib.rs lines 378-399)
extracts from the box, or the error it raises. The `usize` conversions of
the source never fail on a 64-bit host. -/
def readExtentBytes (m : MediaDataBox) (extent : ExtentRange) : Result (List Nat) :=
  if extent.start < m.offset then
    .error (.invalidData "mdat does not contain extent")
  else
    let start_offset := extent.start - m.offset
    match extent with
    | .WithLength start stop =>
        if stop < start then
          .error (.invalidData "range start > end")
        else if 2 ^ 64 ≤ start_offset + (stop - start) then
          .error (.invalidData "extent end overflow")
        else if start_offset + (stop - start) ≤ m.data.length then
          .ok ((m.data.drop start_offset).take (stop - start))
        else
          .error (.invalidData "extent crosses box boundary")
    | .ToEnd _ =>
        if start_offset ≤ m.data.length then
          .ok (m.data.drop start_offset)
        else
          .error (.invalidData "extent crosses box boundary")

/-- `MediaDataBox::read_extent` appends the extracted range to `buf`. -/
def read_extent (m : MediaDataBox) (extent : ExtentRange) (buf : List Nat) : Result (List Nat) := do
  let bs ← readExtentBytes m extent
  .ok (buf ++ bs)

/-- One extent of the payload-assembly loop of `read_avif` (src/lib.rs lines
810-826): scan the media-data boxes in order; the first that
`matches_extent` has its entire buffer moved (`append` empties the box);
otherwise the first that `contains_extent` has the range copied out; no hit
is a data error. -/
def scanMdats (extent : ExtentRange) (buf : List Nat) :
    List MediaDataBox → Result (List MediaDataBox × List Nat)
  | [] => .error (.invalidData "iloc contains an extent that is not in mdat")
  | m :: ms =>
    if matches_extent m extent then
      .ok ({ m with data := [] } :: ms, buf ++ m.data)
    else if contains_extent m extent then do
      let buf ← read_extent m extent buf
      .ok (m :: ms, buf)
    else do
      let (ms, buf) ← scanMdats extent buf ms
      .ok (m :: ms, buf)

/-- The extent loop of `read_avif` for one item (src/lib.rs lines 810-827):
extents are resolved in declaration order against the current media-data
boxes. -/
def assembleExtents (buf : List Nat) (mdats : List MediaDataBox) :
    List ItemLocationBoxExtent → Result (List MediaDataBox × List Nat)
  | [] => .ok (mdats, buf)
  | e :: es => do
    let (mdats, buf) ← scanMdats e.extent_range buf mdats
    assembleExtents buf mdats es

/-- `SingleItemTypeReferenceBox` (src/lib.rs lines 412-417); the reference
type is the 4-byte tag value. -/
structure SingleItemTypeReferenceBox where
  item_type : Nat
  from_item_id : Nat
  to_item_id : Nat
  deriving Repr, DecidableEq

/-- `ItemProperty` (src/lib.rs lines 1051-1056): a pixel-channels list (at
most 16 entries in the source's `ArrayVec`), an auxiliary-type property
carrying its raw `aux_data` bytes, or an unsupported/opaque slot. -/
inductive ItemProperty where
  | Channels (val : List Nat)
  | AuxiliaryType (aux_data : List Nat)
  | Unsupported
  deriving Repr, DecidableEq

/-- `AssociatedProperty` (src/lib.rs lines 1075-1078). -/
structure AssociatedProperty where
  item_id : Nat
  property : ItemProperty
  deriving Repr, DecidableEq

/-- `AvifInternalMeta` (src/lib.rs lines 330-335). -/
structure AvifInternalMeta where
  item_references : List SingleItemTypeReferenceBox
  properties : List AssociatedProperty
  primary_item_id : Nat
  iloc_items : List ItemLocationBoxItem
  deriving Repr, DecidableEq

/-- The first component of `AuxiliaryTypeProperty::type_subtype` (src/lib.rs
lines 1150-1158): the bytes of `aux_data` before the first NUL (all of
`aux_data` when no NUL occurs). -/
def type_subtype_fst (aux_data : List Nat) : List Nat :=
  aux_data.takeWhile (fun b => b ≠ 0)

/-- The auxiliary-type URN that marks an alpha item, as ASCII byte values. -/
def alphaUrn : List Nat :=
  ['u', 'r', 'n', ':', 'm', 'p', 'e', 'g', ':', 'm', 'p', 'e', 'g', 'B', ':',
   'c', 'i', 'c', 'p', ':', 's', 'y', 's', 't', 'e', 'm', 's', ':',
   'a', 'u', 'x', 'i', 'l', 'i', 'a', 'r', 'y', ':', 'a', 'l', 'p', 'h', 'a'].map Char.toNat

/-- The alpha-item discovery of `read_avif` (src/lib.rs lines 763-784):
among references of type "auxl" into the primary item (excluding
self-references), the first source item that carries an auxiliary-type
property equal to the alpha URN. -/
def alpha_item_id (meta : AvifInternalMeta) : Option Nat :=
  ((meta.item_references.filter (fun iref =>
      iref.to_item_id == meta.primary_item_id &&
      iref.from_item_id != meta.primary_item_id &&
      iref.item_type == auxlTag)).map (fun iref => iref.from_item_id)).find?
    (fun item_id =>
      meta.properties.any (fun prop =>
        prop.item_id == item_id &&
        match prop.property with
        | .AuxiliaryType aux_data => type_subtype_fst aux_data == alphaUrn
        | _ => false))

/-- The premultiplied-alpha computation of `read_avif` (src/lib.rs lines
786-795): false when no alpha item was discovered, otherwise the existence
of a "prem" reference from the primary item to the alpha item. -/
def premultiplied_alpha_flag (meta : AvifInternalMeta) : Bool :=
  match alpha_item_id meta with
  | none => false
  | some aid =>
      meta.item_references.any (fun iref =>
        iref.from_item_id == meta.primary_item_id &&
        iref.to_item_id == aid &&
        iref.item_type == premTag)

/-- `AvifData` (src/lib.rs lines 269-283). -/
structure AvifData where
  primary_item : List Nat
  alpha_item : Option (List Nat)
  premultiplied_alpha : Bool
  deriving Repr, DecidableEq

/-- The item-loading loop of `read_avif` (src/lib.rs lines 797-828):
locations for the primary item extend the primary buffer, locations for the
discovered alpha item extend the (created-on-first-use) alpha buffer, all
others are skipped; a non-`File` construction method on a processed entry
is an unsupported-feature error. -/
def loadItems (pid : Nat) (aid : Option Nat) :
    List ItemLocationBoxItem → List Nat → Option (List Nat) → List MediaDataBox →
    Result (List Nat × Option (List Nat) × List MediaDataBox)
  | [], primary, alpha, mdats => .ok (primary, alpha, mdats)
  | loc :: locs, primary, alpha, mdats =>
    if loc.item_id = pid then
      if loc.construction_method ≠ ConstructionMethod.File then
        .error (.unsupported "unsupported construction_method")
      else do
        let (mdats, primary) ← assembleExtents primary mdats loc.extents
        loadItems pid aid locs primary alpha mdats
    else if aid = some loc.item_id then
      if loc.construction_method ≠ ConstructionMethod.File then
        .error (.unsupported "unsupported construction_method")
      else do
        let (mdats, abuf) ← assembleExtents (alpha.getD []) mdats loc.extents
        loadItems pid aid locs primary (some abuf) mdats
    else
      loadItems pid aid locs primary alpha mdats

/-- The metadata-resolution and payload-assembly stage of `read_avif`
(src/lib.rs lines 761-830), taking the parsed meta and the collected
media-data boxes. -/
def read_avif_resolve (meta : AvifInternalMeta) (mdats : List MediaDataBox) :
    Result AvifData := do
  let (primary, alpha, _) ←
    loadItems meta.primary_item_id (alpha_item_id meta) meta.iloc_items [] none mdats
  .ok ⟨primary, alpha, premultiplied_alpha_flag meta⟩

/-- Specification-side definition, following the claim's words: the bytes an
extent designates in the original file are the byte range it names inside
the first media-data box that matches or contains it (for a to-end extent,
through the end of that box). This definition is not part of the source; it
is the comparison point for the concatenation claim. -/
def specDesignatedBytes (mdats : List MediaDataBox) (extent : ExtentRange) :
    Option (List Nat) :=
  match mdats.find? (fun m => matches_extent m extent || contains_extent m extent) with
  | none => none
  | some m =>
    match extent with
    | .WithLength start stop =>
        if m.offset ≤ start ∧ stop - m.offset ≤ m.data.length then
          some ((m.data.drop (start - m.offset)).take (stop - start))
        else
          none
    | .ToEnd start =>
        if m.offset ≤ start ∧ start - m.offset ≤ m.data.length then
          some (m.data.drop (start - m.offset))
        else
          none

/-- `ColorConfig` (src/obu.rs lines 219-232). -/
structure ColorConfig where
  subsampling_x : Nat
  subsampling_y : Nat
  chroma_sample_position : Nat
  separate_uv_delta_q : Bool
  color_range : Nat
  bit_depth : Nat
  mono_chrome : Bool
  color_primaries : Nat
  transfer_characteristics : Nat
  matrix_coefficients : Nat
  deriving Repr, DecidableEq

/-- The bit-depth computation of `color_config` (src/obu.rs lines 236-249):
for profile 2 with the high-bit-depth flag a further twelve-bit flag selects
12 or 10; otherwise the high-bit-depth flag selects 10 or 8. -/
def read_bit_depth (seq_profile : Nat) (high_bitdepth : Bool) (b : Bits) :
    Result (Nat × Bits) :=
  if seq_profile = 2 ∧ high_bitdepth then do
    let (twelve_bit, b) ← readBool b
    pure ((if twelve_bit then 12 else 10), b)
  else
    pure (((if high_bitdepth then 10 else 8) : Nat), b)

/-- The mono-chrome flag of `color_config` (src/obu.rs line 251): implied
false for profile 1, otherwise read. -/
def read_mono_chrome (seq_profile : Nat) (b : Bits) : Result (Bool × Bits) :=
  if seq_profile = 1 then pure (false, b) else readBool b

/-- The colour-description triple of `color_config` (src/obu.rs lines
254-262): `(2, 2, 2)` ("unspecified") when the present flag is clear. -/
def read_color_description (b : Bits) : Result ((Nat × Nat × Nat) × Bits) := do
  let (color_description_present_flag, b) ← readBool b
  if color_description_present_flag then do
    let (cp, b) ← readBits 8 b
    let (tc, b) ← readBits 8 b
    let (mc, b) ← readBits 8 b
    pure ((cp, tc, mc), b)
  else
    pure (((2 : Nat), (2 : Nat), (2 : Nat)), b)

/-- The subsampling decision table of `color_config` (src/obu.rs lines
286-302): profile 0 is 4:2:0, profile 1 is 4:4:4, profile 2 with 12-bit
depth reads explicit flags, profile 2 otherwise is 4:2:2. -/
def read_subsampling (seq_profile bit_depth : Nat) (b : Bits) :
    Result ((Nat × Nat) × Bits) :=
  if seq_profile = 0 then
    pure (((1 : Nat), (1 : Nat)), b)
  else if seq_profile = 1 then
    pure (((0 : Nat), (0 : Nat)), b)
  else if bit_depth = 12 then do
    let (sx, b) ← readBits 1 b
    if sx ≠ 0 then do
      let (sy, b) ← readBits 1 b
      pure ((sx, sy), b)
    else
      pure ((sx, (0 : Nat)), b)
  else
    pure (((1 : Nat), (0 : Nat)), b)

/-- The chroma-sample-position read of `color_config` (src/obu.rs line 304):
present only when both subsampling flags are set. -/
def read_chroma_sample_position (subsampling_x subsampling_y : Nat) (b : Bits) :
    Result (Nat × Bits) :=
  if subsampling_x ≠ 0 ∧ subsampling_y ≠ 0 then readBits 2 b else pure ((0 : Nat), b)

/-- The tail of `color_config` after depth/monochrome/description are known
(src/obu.rs lines 264-321): monochrome short-circuits, the
sRGB/BT.709/identity combination short-circuits, otherwise the subsampling
table applies. -/
def color_config_tail (seq_profile bit_depth : Nat) (mono_chrome : Bool)
    (color_primaries transfer_characteristics matrix_coefficients : Nat) (b : Bits) :
    Result (ColorConfig × Bits) :=
  if mono_chrome then do
    let (color_range, b) ← readBits 1 b
    .ok (⟨0, 0, 0, false, color_range, bit_depth, mono_chrome,
          color_primaries, transfer_characteristics, matrix_coefficients⟩, b)
  else if color_primaries = 1 ∧ transfer_characteristics = 13 ∧ matrix_coefficients = 0 then
    .ok (⟨0, 0, 0, false, 1, bit_depth, mono_chrome,
          color_primaries, transfer_characteristics, matrix_coefficients⟩, b)
  else do
    let (color_range, b) ← readBits 1 b
    let ((subsampling_x, subsampling_y), b) ← read_subsampling seq_profile bit_depth b
    let (chroma_sample_position, b) ← read_chroma_sample_position subsampling_x subsampling_y b
    let (separate_uv_delta_q, b) ← readBool b
    .ok (⟨subsampling_x, subsampling_y, chroma_sample_position, separate_uv_delta_q,
          color_range, bit_depth, mono_chrome,
          color_primaries, transfer_characteristics, matrix_coefficients⟩, b)

/-- `color_config` (src/obu.rs lines 234-321), assembled from the stages
above in source order. -/
def color_config (b : Bits) (seq_profile : Nat) : Result (ColorConfig × Bits) := do
  let (high_bitdepth, b) ← readBool b
  let (bit_depth, b) ← read_bit_depth seq_profile high_bitdepth b
  let (mono_chrome, b) ← read_mono_chrome seq_profile b
  let ((color_primaries, transfer_characteristics, matrix_coefficients), b) ←
    read_color_description b
  color_config_tail seq_profile bit_depth mono_chrome
    color_primaries transfer_characteristics matrix_coefficients b

/-- `SequenceHeaderObu` (src/obu.rs lines 185-217); the `NonZeroU32` frame
dimensions are plain naturals here (the strict positivity is proved). -/
structure SequenceHeaderObu where
  color : ColorConfig
  seq_profile : Nat
  still_picture : Bool
  reduced_still_picture_header : Bool
  max_frame_width : Nat
  max_frame_height : Nat
  enable_superres : Bool
  enable_cdef : Bool
  enable_restoration : Bool
  frame_id_numbers_present_flag : Bool
  delta_frame_id_length : Nat
  additional_frame_id_length : Nat
  film_grain_params_present : Bool
  decoder_model_info_present_flag : Bool
  seq_force_screen_content_tools : Nat
  seq_force_integer_mv : Nat
  order_hint_bits : Nat
  enable_order_hint : Bool
  use_128x128_superblock : Bool
  enable_interintra_compound : Bool
  enable_masked_compound : Bool
  enable_warped_motion : Bool
  enable_dual_filter : Bool
  enable_jnt_comp : Bool
  enable_ref_frame_mvs : Bool
  deriving Repr, DecidableEq

/-- The operating-points loop of `SequenceHeaderObu::read` (src/obu.rs lines
75-91). `decoder_model_info_present_flag` is the constant `false` at the
call site, so its unsupported arm is unreachable, but it is modelled
faithfully. -/
def readOperatingPoints (decoder_model_info_present_flag initial_display_delay_present_flag : Bool) :
    Nat → Bits → Result Bits
  | 0, b => .ok b
  | n + 1, b => do
    let (_operating_point_idc, b) ← readBits 12 b
    let (seq_level_idx, b) ← readBits 5 b
    let (_seq_tier, b) ← if seq_level_idx > 7 then readBool b else pure (false, b)
    if decoder_model_info_present_flag then do
      let (_, _) ← readBool b
      .error (.unsupported "decoder_model_info_present_flag")
    else do
      let b ←
        if initial_display_delay_present_flag then do
          let (present, b) ← readBool b
          if present then do
            let (_initial_display_delay, b) ← readBits 4 b
            pure b
          else
            pure b
        else
          pure b
      readOperatingPoints decoder_model_info_present_flag initial_display_delay_present_flag n b

/-- The level/operating-points block of `SequenceHeaderObu::read` (src/obu.rs
lines 58-94): in the reduced-still-picture form only a 5-bit level index is
read; otherwise a set timing-info flag is unsupported and the
operating-points loop runs. `decoder_model_info_present_flag` is the
constant `false` of the source. -/
def read_operating_points_block (decoder_model_info_present_flag reduced_still_picture_header : Bool)
    (b : Bits) : Result Bits :=
  if reduced_still_picture_header then do
    let (_seq_level_idx, b) ← readBits 5 b
    pure b
  else do
    let (timing_info_present_flag, b) ← readBool b
    if timing_info_present_flag then
      .error (.unsupported "timing_info_present_flag")
    else do
      let (initial_display_delay_present_flag, b) ← readBool b
      let (opcnt_minus1, b) ← readBits 5 b
      readOperatingPoints decoder_model_info_present_flag
        initial_display_delay_present_flag (1 + opcnt_minus1) b

/-- The frame-id fields of `SequenceHeaderObu::read` (src/obu.rs lines
105-107): present flag (implied false in the reduced form), then
`2 + 4 bits` and `1 + 3 bits` lengths when present, else zero. -/
def read_frame_id_fields (reduced_still_picture_header : Bool) (b : Bits) :
    Result ((Bool × Nat × Nat) × Bits) := do
  let (frame_id_numbers_present_flag, b) ←
    if reduced_still_picture_header then pure (false, b) else readBool b
  let (delta_frame_id_length, b) ←
    if frame_id_numbers_present_flag then do
      let (v, b) ← readBits 4 b
      pure (2 + v, b)
    else
      pure ((0 : Nat), b)
  let (additional_frame_id_length, b) ←
    if frame_id_numbers_present_flag then do
      let (v, b) ← readBits 3 b
      pure (1 + v, b)
    else
      pure ((0 : Nat), b)
  pure ((frame_id_numbers_present_flag, delta_frame_id_length, additional_frame_id_length), b)

/-- The coding-tool block of `SequenceHeaderObu::read` (src/obu.rs lines
113-148): in the reduced form all flags keep their defaults (the force
selectors stay at the SELECT constants, value 2); otherwise the
inter-coding flags, the screen-content/integer-mv selectors and the
order-hint width are read. The result tuple is (interintra, masked, warped,
dual-filter, jnt-comp, ref-frame-mvs, force-screen-content, force-integer-mv,
order-hint-bits, enable-order-hint). -/
def read_sequence_tools (reduced_still_picture_header : Bool) (b : Bits) :
    Result ((Bool × Bool × Bool × Bool × Bool × Bool × Nat × Nat × Nat × Bool) × Bits) :=
  if reduced_still_picture_header then
    pure ((false, false, false, false, false, false, (2 : Nat), (2 : Nat), (0 : Nat), false), b)
  else do
    let (eic, b) ← readBool b
    let (emc, b) ← readBool b
    let (ewm, b) ← readBool b
    let (edf, b) ← readBool b
    let (eoh, b) ← readBool b
    let ((ejc, erfm), b) ←
      if eoh then do
        let (ejc, b) ← readBool b
        let (erfm, b) ← readBool b
        pure ((ejc, erfm), b)
      else
        pure ((false, false), b)
    let (seq_choose_screen_content_tools, b) ← readBool b
    let (sfsct, b) ←
      if seq_choose_screen_content_tools then pure ((2 : Nat), b) else readBits 1 b
    let (sfimv, b) ←
      if sfsct > 0 then do
        let (seq_choose_integer_mv, b) ← readBool b
        if seq_choose_integer_mv then pure ((2 : Nat), b) else readBits 1 b
      else
        pure ((2 : Nat), b)
    let (ohb, b) ←
      if eoh then do
        let (v, b) ← readBits 3 b
        pure (1 + v, b)
      else
        pure ((0 : Nat), b)
    pure ((eic, emc, ewm, edf, ejc, erfm, sfsct, sfimv, ohb, eoh), b)

/-- `SequenceHeaderObu::read` (src/obu.rs lines 44-182), assembled from the
stage functions above in source order. The source's
`NonZeroU8::new(1 + read_u8(4))` and `NonZeroU32::new(1 + read_u32(≤ 16))`
never fail (the read values are bounded well below the type maxima), so the
corresponding `ok_or(InvalidData("overflow"))` arms do not occur. -/
def SequenceHeaderObu.read (data : List Nat) : Result SequenceHeaderObu := do
  let (seq_profile, b) ← readBits 3 (mkBits data)
  if seq_profile > 2 then
    .error (.invalidData "seq_profile")
  else do
    let (still_picture, b) ← readBool b
    let (reduced_still_picture_header, b) ← readBool b
    let b ← read_operating_points_block false reduced_still_picture_header b
    let (fwb_minus1, b) ← readBits 4 b
    let (fhb_minus1, b) ← readBits 4 b
    let (mfw_minus1, b) ← readBits (1 + fwb_minus1) b
    let (mfh_minus1, b) ← readBits (1 + fhb_minus1) b
    let ((frame_id_numbers_present_flag, delta_frame_id_length, additional_frame_id_length), b) ←
      read_frame_id_fields reduced_still_picture_header b
    let (use_128x128_superblock, b) ← readBool b
    let (_enable_filter_intra, b) ← readBool b
    let (_enable_intra_edge_filter, b) ← readBool b
    let ((enable_interintra_compound, enable_masked_compound, enable_warped_motion,
          enable_dual_filter, enable_jnt_comp, enable_ref_frame_mvs,
          seq_force_screen_content_tools, seq_force_integer_mv,
          order_hint_bits, enable_order_hint), b) ←
      read_sequence_tools reduced_still_picture_header b
    let (enable_superres, b) ← readBool b
    let (enable_cdef, b) ← readBool b
    let (enable_restoration, b) ← readBool b
    let (color, b) ← color_config b seq_profile
    let (film_grain_params_present, _) ← readBool b
    .ok ⟨color, seq_profile, still_picture, reduced_still_picture_header,
         1 + mfw_minus1, 1 + mfh_minus1, enable_superres, enable_cdef, enable_restoration,
         frame_id_numbers_present_flag, delta_frame_id_length, additional_frame_id_length,
         film_grain_params_present, false,
         seq_force_screen_content_tools, seq_force_integer_mv, order_hint_bits, enable_order_hint,
         use_128x128_superblock, enable_interintra_compound, enable_masked_compound,
         enable_warped_motion, enable_dual_filter, enable_jnt_comp, enable_ref_frame_mvs⟩

/-- `read_pixi` (src/lib.rs lines 1128-1142), release-build semantics: the
channel buffer holds `min num_channels 16` entries (the `ArrayVec` has
capacity 16, so `extend` is silently capped), a short `read_exact` is
`InvalidData "invalid num_channels"`, and trailing content is caught by
`check_parser_state` (src/lib.rs lines 1312-1321). -/
def read_pixi (s : BStream) : Result (List Nat) := do
  let (version, s) ← read_fullbox_version_no_flags s
  if version ≠ 0 then
    .error (.unsupported "pixi version")
  else do
    let (num_channels, s) ← read_u8 s
    match readBytes (min num_channels 16) s with
    | .error _ => .error (.invalidData "invalid num_channels")
    | .ok (channels, s) =>
      if s.limit = 0 then
        .ok channels
      else
        .error (.invalidData "unread box content or bad parser sync")

/-- The condition of the `debug_assert_eq!(num_channels, channels.len())` in
`read_pixi` (src/lib.rs line 1137) at the point it is evaluated, or `none`
when the parse fails before reaching it. `channels.len()` at that point is
`min num_channels 16`. In a debug build a `false` value aborts the
process. -/
def read_pixi_debug_assert (s : BStream) : Option Bool :=
  match read_fullbox_version_no_flags s with
  | .error _ => none
  | .ok (version, s) =>
    if version ≠ 0 then
      none
    else
      match read_u8 s with
      | .error _ => none
      | .ok (num_channels, _) => some (num_channels == min num_channels 16)

/-- Modelled from the spec: the content-light-level HDR record (CTA-861.3),
two 16-bit values. The clli/mdcv parsing code and the corresponding
`AvifData` fields are absent from src/ (only tests/public.rs references
them), so these definitions follow the specification text. -/
structure ContentLightLevel where
  max_content_light_level : Nat
  max_pic_average_light_level : Nat
  deriving Repr, DecidableEq

/-- Modelled from the spec: the mastering-display-colour-volume record
(SMPTE ST 2086): three 16-bit (x, y) chromaticity pairs, a white point pair
and two 32-bit luminance values. -/
structure MasteringDisplayColourVolume where
  primaries : (Nat × Nat) × (Nat × Nat) × (Nat × Nat)
  white_point : Nat × Nat
  max_luminance : Nat
  min_luminance : Nat
  deriving Repr, DecidableEq

/-- Modelled from the spec: parse a clli property payload — two big-endian
16-bit values (max content light level, max picture-average light level). -/
def read_clli (s : BStream) : Result ContentLightLevel := do
  let (maxCll, s) ← be_u16 s
  let (maxPall, _) ← be_u16 s
  .ok ⟨maxCll, maxPall⟩

/-- Modelled from the spec: parse an mdcv property payload — six 16-bit
chromaticity values (three pairs), a 16-bit white point pair, then 32-bit
max and min luminance. -/
def read_mdcv (s : BStream) : Result MasteringDisplayColourVolume := do
  let (gx, s) ← be_u16 s
  let (gy, s) ← be_u16 s
  let (bx, s) ← be_u16 s
  let (by_, s) ← be_u16 s
  let (rx, s) ← be_u16 s
  let (ry, s) ← be_u16 s
  let (wx, s) ← be_u16 s
  let (wy, s) ← be_u16 s
  let (maxLum, s) ← be_u32 s
  let (minLum, _) ← be_u32 s
  .ok ⟨((gx, gy), (bx, by_), (rx, ry)), (wx, wy), maxLum, minLum⟩

/-- Modelled from the spec: the HDR-metadata property variants the missing
code adds to the item-property list. -/
inductive HdrProperty where
  | clli (value : ContentLightLevel)
  | mdcv (value : MasteringDisplayColourVolume)
  deriving Repr, DecidableEq

/-- The clli payload of an HDR property, if it is one. -/
def HdrProperty.clliValue : HdrProperty → Option ContentLightLevel
  | .clli v => some v
  | _ => none

/-- The mdcv payload of an HDR property, if it is one. -/
def HdrProperty.mdcvValue : HdrProperty → Option MasteringDisplayColourVolume
  | .mdcv v => some v
  | _ => none

/-- Modelled from the spec: an HDR property associated with an item. -/
structure AssociatedHdrProperty where
  item_id : Nat
  property : HdrProperty
  deriving Repr, DecidableEq

/-- Modelled from the spec: the HDR resolution step of `read_avif` — the
result's optional records are the first content-light-level and the first
mastering-display property associated with the primary item. -/
def resolve_hdr (props : List AssociatedHdrProperty) (pid : Nat) :
    Option ContentLightLevel × Option MasteringDisplayColourVolume :=
  ((props.filterMap (fun p => if p.item_id = pid then p.property.clliValue else none)).head?,
   (props.filterMap (fun p => if p.item_id = pid then p.property.mdcvValue else none)).head?)

instance {ε α : Type} [DecidableEq ε] [DecidableEq α] : DecidableEq (Except ε α)
  | .ok x, .ok y =>
      if h : x = y then isTrue (by rw [h]) else isFalse (by simp [h])
  | .ok _, .error _ => isFalse (by simp)
  | .error _, .ok _ => isFalse (by simp)
  | .error x, .error y =>
      if h : x = y then isTrue (by rw [h]) else isFalse (by simp [h])

/-- An extent range fits u64 arithmetic: its start does not exceed its end
and both stay below 2^64. Every extent produced by `read_iloc` satisfies
this by construction (the overflow checks of `mkExtentRange`). -/
def extentWithinU64 : ExtentRange → Bool
  | .WithLength start stop => decide (start ≤ stop) && decide (stop < 2 ^ 64)
  | .ToEnd start => decide (start < 2 ^ 64)

/-- `true` on a successful result. -/
def resultIsOk {α : Type} : Result α → Bool
  | .ok _ => true
  | .error _ => false

/-- An extent is resolved through the copy path of the assembly loop: the
first media-data box that matches or contains it does not match it exactly
(so its bytes are copied, not moved) and the copy succeeds. -/
def containedResolvable (mdats : List MediaDataBox) (e : ExtentRange) : Bool :=
  match mdats.find? (fun m => matches_extent m e || contains_extent m e) with
  | none => false
  | some m => !(matches_extent m e) && resultIsOk (readExtentBytes m e)

/-- A 17-byte ftyp box whose major brand is "avis" but whose brand area is
one byte short of a multiple of four. -/
def avisBadFtypBytes : List Nat :=
  [0, 0, 0, 17, 0x66, 0x74, 0x79, 0x70, 0x61, 0x76, 0x69, 0x73, 0, 0, 0, 0, 0]

/-- A minimal first box that is not an ftyp box. -/
def notFtypBytes : List Nat := [0, 0, 0, 8, 0x61, 0x62, 0x63, 0x64]

/-- A well-formed ftyp box with major brand "abcd". -/
def badBrandBytes : List Nat :=
  [0, 0, 0, 16, 0x66, 0x74, 0x79, 0x70, 0x61, 0x62, 0x63, 0x64, 0, 0, 0, 0]

/-- A well-formed ftyp box with major brand "avis". -/
def avisBytes : List Nat :=
  [0, 0, 0, 16, 0x66, 0x74, 0x79, 0x70, 0x61, 0x76, 0x69, 0x73, 0, 0, 0, 0]

/-- A pixi box body (full-box header, 17 declared channels, 17 depth
bytes) — 22 bytes of content. -/
def pixiStream17 : BStream :=
  ⟨22, [0, 0, 0, 0, 17, 0, 0, 0, 0, 0, 0, 0, 0, 0, 0, 0, 0, 0, 0, 0, 0, 0]⟩

/-- One media-data box at file offset 100 holding three bytes. -/
def dupMdats : List MediaDataBox := [⟨100, [1, 2, 3]⟩]

/-- Two identical to-end extents, both designating the whole box at offset
100. -/
def dupExtents : List ItemLocationBoxExtent := [⟨.ToEnd 100⟩, ⟨.ToEnd 100⟩]

/-- Meta whose primary item (id 1) stores its data as `dupExtents`. -/
def dupMeta : AvifInternalMeta := ⟨[], [], 1, [⟨1, .File, dupExtents⟩]⟩

/-- Meta whose primary item (id 1) has an iloc entry with the item-data-box
construction method. -/
def idatMeta : AvifInternalMeta := ⟨[], [], 1, [⟨1, .Idat, [⟨.WithLength 0 1⟩]⟩]⟩

/-- Meta with primary item 1, a discovered alpha item 2 ("auxl" reference
into the primary plus the alpha URN property), and a single iloc entry — for
the alpha item only, with the item-data-box construction method. -/
def alphaIdatMeta : AvifInternalMeta :=
  ⟨[⟨auxlTag, 2, 1⟩], [⟨2, .AuxiliaryType alphaUrn⟩], 1,
   [⟨2, .Idat, [⟨.WithLength 0 1⟩]⟩]⟩

/-- A four-byte AV1 sequence-header payload in the reduced-still-picture
form: profile 0, still picture, 1×1 frame, 8-bit, monochrome. -/
def seqHeaderWitnessBytes : List Nat := [24, 0, 0, 16]

/-- An iloc box body: version 1, 4-byte offset/length/base fields, no index
field, one item (id 1, construction method item-data-box, one extent of
length 5 at offset 0). -/
def ilocWitnessStream : BStream :=
  ⟨28, [1, 0, 0, 0, 0x44, 0x40, 0, 1, 0, 1, 0, 1, 0, 0, 0, 0, 0, 0, 0, 1,
        0, 0, 0, 0, 0, 0, 0, 5]⟩

/-- The sequence header parsed from `seqHeaderWitnessBytes`. -/
def seqHeaderWitnessValue : SequenceHeaderObu :=
  ⟨⟨0, 0, 0, false, 0, 8, true, 2, 2, 2⟩, 0, true, true, 1, 1, false, false, false,
   false, 0, 0, false, false, 2, 2, 0, false, false, false, false, false, false, false, false⟩

/-- Meta with an iloc entry only for the unrelated item 2. -/
def noPrimaryEntryMeta : AvifInternalMeta := ⟨[], [], 1, [⟨2, .File, [⟨.ToEnd 0⟩]⟩]⟩

/-! ## Helper lemmas -/

/-- Inversion for a successful `Except` bind. -/
theorem except_bind_ok {ε α β : Type} (X : Except ε α) (F : α → Except ε β) (r : β)
    (h : X >>= F = .ok r) : ∃ v, X = .ok v ∧ F v = .ok r := by
  cases X with
  | ok v => exact ⟨v, rfl, h⟩
  | error e => exact Except.noConfusion h

theorem beVal_fold_lt (bs : List Nat) :
    ∀ a : Nat, bs.foldl (fun a b => 256 * a + b % 256) a < (a + 1) * 256 ^ bs.length := by
  induction bs with
  | nil => intro a; simp
  | cons b bs ih =>
    intro a
    simp only [List.foldl_cons, List.length_cons]
    have h3 : (256 * a + b % 256 + 1) * 256 ^ bs.length ≤ (a + 1) * 256 ^ (bs.length + 1) := by
      rw [pow_succ]
      have hb : b % 256 < 256 := Nat.mod_lt _ (by norm_num)
      calc (256 * a + b % 256 + 1) * 256 ^ bs.length
          ≤ (256 * (a + 1)) * 256 ^ bs.length := by
            apply Nat.mul_le_mul_right
            omega
        _ = (a + 1) * (256 ^ bs.length * 256) := by ring
    exact lt_of_lt_of_le (ih _) h3

/-- A big-endian byte value is bounded by 256 to the byte count. -/
theorem beVal_lt (bs : List Nat) : beVal bs < 256 ^ bs.length := by
  simpa using beVal_fold_lt bs 0

theorem be_u16_lt (s : BStream) (v : Nat) (s' : BStream)
    (h : be_u16 s = .ok (v, s')) : v < 2 ^ 16 := by
  unfold be_u16 at h
  obtain ⟨vb, hb, h⟩ := except_bind_ok _ _ _ h
  try dsimp only at h
  have hv := congrArg Prod.fst (Except.ok.inj h)
  dsimp only at hv
  rw [← hv]
  unfold readBytes at hb
  split at hb
  · rename_i hc
    have h1 := congrArg Prod.fst (Except.ok.inj hb)
    dsimp only at h1
    rw [← h1]
    have hlt := beVal_lt (s.data.take 2)
    have hlen : (s.data.take 2).length = 2 := by
      rw [List.length_take]
      omega
    rw [hlen] at hlt
    calc beVal (s.data.take 2) < 256 ^ 2 := hlt
      _ = 2 ^ 16 := by norm_num
  · exact Except.noConfusion hb

theorem be_u32_lt (s : BStream) (v : Nat) (s' : BStream)
    (h : be_u32 s = .ok (v, s')) : v < 2 ^ 32 := by
  unfold be_u32 at h
  obtain ⟨vb, hb, h⟩ := except_bind_ok _ _ _ h
  try dsimp only at h
  have hv := congrArg Prod.fst (Except.ok.inj h)
  dsimp only at hv
  rw [← hv]
  unfold readBytes at hb
  split at hb
  · rename_i hc
    have h1 := congrArg Prod.fst (Except.ok.inj hb)
    dsimp only at h1
    rw [← h1]
    have hlt := beVal_lt (s.data.take 4)
    have hlen : (s.data.take 4).length = 4 := by
      rw [List.length_take]
      omega
    rw [hlen] at hlt
    calc beVal (s.data.take 4) < 256 ^ 4 := hlt
      _ = 2 ^ 32 := by norm_num
  · exact Except.noConfusion hb

/-- When the first relevant (primary/alpha) location entry has a non-`File`
construction method, the loading loop fails with the unsupported error. -/
theorem loadItems_first_relevant_bad (pid : Nat) (aid : Option Nat)
    (locs : List ItemLocationBoxItem) (loc : ItemLocationBoxItem)
    (hfind : locs.find? (fun l => l.item_id == pid || aid == some l.item_id) = some loc)
    (hcm : loc.construction_method ≠ ConstructionMethod.File) :
    ∀ primary alpha mdats, loadItems pid aid locs primary alpha mdats =
      .error (.unsupported "unsupported construction_method") := by
  induction locs with
  | nil => cases hfind
  | cons l ls ih =>
    intro primary alpha mdats
    rw [List.find?_cons] at hfind
    by_cases hp : (l.item_id == pid || aid == some l.item_id) = true
    · rw [hp] at hfind
      injection hfind with hfind
      subst hfind
      rcases Bool.or_eq_true_iff.mp hp with h1 | h2
      · have h1' : l.item_id = pid := by simpa using h1
        unfold loadItems
        rw [if_pos h1', if_pos hcm]
      · have h2' : aid = some l.item_id := by simpa using h2
        unfold loadItems
        by_cases hl : l.item_id = pid
        · rw [if_pos hl, if_pos hcm]
        · rw [if_neg hl, if_pos h2', if_pos hcm]
    · rw [Bool.not_eq_true] at hp
      rw [hp] at hfind
      have h1 : ¬ (l.item_id = pid) := by
        intro hc
        rw [hc] at hp
        simp at hp
      have h2 : ¬ (aid = some l.item_id) := by
        intro hc
        rw [hc] at hp
        simp at hp
      unfold loadItems
      rw [if_neg h1, if_neg h2]
      exact ih hfind primary alpha mdats

/-- A relevant location entry with a non-`File` construction method anywhere
in the list prevents the loading loop from succeeding. -/
theorem loadItems_relevant_bad_no_ok (pid : Nat) (aid : Option Nat)
    (locs : List ItemLocationBoxItem) (loc : ItemLocationBoxItem)
    (hmem : loc ∈ locs)
    (hrel : loc.item_id = pid ∨ aid = some loc.item_id)
    (hcm : loc.construction_method ≠ ConstructionMethod.File) :
    ∀ primary alpha mdats out, loadItems pid aid locs primary alpha mdats ≠ .ok out := by
  induction locs with
  | nil => cases hmem
  | cons l ls ih =>
    intro primary alpha mdats out
    rcases List.mem_cons.mp hmem with rfl | htail
    · unfold loadItems
      rcases hrel with h1 | h2
      · rw [if_pos h1, if_pos hcm]
        simp
      · by_cases hl : loc.item_id = pid
        · rw [if_pos hl, if_pos hcm]
          simp
        · rw [if_neg hl, if_pos h2, if_pos hcm]
          simp
    · unfold loadItems
      by_cases hl : l.item_id = pid
      · rw [if_pos hl]
        by_cases hcl : l.construction_method ≠ ConstructionMethod.File
        · rw [if_pos hcl]
          simp
        · rw [if_neg hcl]
          rcases hass : assembleExtents primary mdats l.extents with e | ⟨m2, buf2⟩
          · simp [hass, bind, Except.bind]
          · simp only [hass, bind, Except.bind]
            exact ih htail _ _ _ _
      · rw [if_neg hl]
        by_cases ha : aid = some l.item_id
        · rw [if_pos ha]
          by_cases hcl : l.construction_method ≠ ConstructionMethod.File
          · rw [if_pos hcl]
            simp
          · rw [if_neg hcl]
            rcases hass : assembleExtents (alpha.getD []) mdats l.extents with e | ⟨m2, buf2⟩
            · simp [hass, bind, Except.bind]
            · simp only [hass, bind, Except.bind]
              exact ih htail _ _ _ _
        · rw [if_neg ha]
          exact ih htail _ _ _ _

/-- When no location entry concerns the primary or alpha item, the loading
loop leaves all buffers untouched. -/
theorem loadItems_skip_all (pid : Nat) (aid : Option Nat)
    (locs : List ItemLocationBoxItem)
    (h : ∀ loc ∈ locs, loc.item_id ≠ pid ∧ aid ≠ some loc.item_id) :
    ∀ primary alpha mdats,
      loadItems pid aid locs primary alpha mdats = .ok (primary, alpha, mdats) := by
  induction locs with
  | nil => intro _ _ _; rfl
  | cons l ls ih =>
    intro primary alpha mdats
    obtain ⟨h1, h2⟩ := h l (List.mem_cons_self l ls)
    unfold loadItems
    rw [if_neg h1, if_neg h2]
    exact ih (fun loc hm => h loc (List.mem_cons_of_mem l hm)) primary alpha mdats

/-- `mkExtentRange` only produces extents within u64 bounds. -/
theorem mkExtentRange_ok_bounded (base off len : Nat) (e : ExtentRange)
    (h : mkExtentRange base off len = .ok e) : extentWithinU64 e = true := by
  unfold mkExtentRange at h
  split at h
  · simp at h
  · split at h
    · injection h with h
      subst h
      simp [extentWithinU64]
      omega
    · split at h
      · simp at h
      · injection h with h
        subst h
        simp [extentWithinU64]
        omega

theorem readIlocExtents_bounded (index_size : Option IlocFieldSize)
    (offset_size length_size : IlocFieldSize) (base_offset : Nat) :
    ∀ n b out b',
      readIlocExtents index_size offset_size length_size base_offset n b = .ok (out, b') →
      ∀ x ∈ out, extentWithinU64 x.extent_range = true := by
  intro n
  induction n with
  | zero =>
    intro b out b' h x hx
    unfold readIlocExtents at h
    simp at h
    rw [h.1] at hx
    cases hx
  | succ n ih =>
    intro b out b' h x hx
    unfold readIlocExtents at h
    simp only [bind, Except.bind, pure] at h
    repeat' split at h
    all_goals (try (simp at h))
    all_goals (
      obtain ⟨h1, h2⟩ := h
      subst h1
      rcases List.mem_cons.mp hx with rfl | htail
      · exact mkExtentRange_ok_bounded _ _ _ _ (by assumption)
      · exact ih _ _ _ (by assumption) _ htail)

theorem readIlocItems_bounded (version : IlocVersion)
    (offset_size length_size base_offset_size : IlocFieldSize)
    (index_size : Option IlocFieldSize) :
    ∀ n b out b',
      readIlocItems version offset_size length_size base_offset_size index_size n b =
        .ok (out, b') →
      ∀ item ∈ out, ∀ x ∈ item.extents, extentWithinU64 x.extent_range = true := by
  intro n
  induction n with
  | zero =>
    intro b out b' h item hitem x hx
    unfold readIlocItems at h
    simp at h
    rw [h.1] at hitem
    cases hitem
  | succ n ih =>
    intro b out b' h item hitem x hx
    unfold readIlocItems at h
    simp only [bind, Except.bind, pure] at h
    repeat' split at h
    all_goals (try (simp at h))
    all_goals (
      obtain ⟨h1, h2⟩ := h
      subst h1
      rcases List.mem_cons.mp hitem with rfl | htail
      · exact readIlocExtents_bounded _ _ _ _ _ _ _ _ (by assumption) _ hx
      · exact ih _ _ _ (by assumption) _ htail _ hx)

/-- Everything `read_iloc` returns is within u64 bounds. -/
theorem read_iloc_bounded (s : BStream) (items : List ItemLocationBoxItem)
    (h : read_iloc s = .ok items) :
    ∀ item ∈ items, ∀ x ∈ item.extents, extentWithinU64 x.extent_range = true := by
  intro item hitem x hx
  unfold read_iloc at h
  simp only [bind, Except.bind, pure] at h
  repeat' split at h
  all_goals (try (simp at h))
  all_goals (
    subst h
    exact readIlocItems_bounded _ _ _ _ _ _ _ _ _ (by assumption) _ hitem _ hx)

/-- A successfully extracted extent is a contiguous slice of the media-data
box it was taken from — never bytes outside it. -/
theorem readExtentBytes_infix (m : MediaDataBox) (e : ExtentRange) (bs : List Nat)
    (h : readExtentBytes m e = .ok bs) : List.IsInfix bs m.data := by
  unfold readExtentBytes at h
  dsimp only at h
  repeat' split at h
  all_goals (try (simp at h))
  all_goals first
    | (subst h; exact ((List.take_prefix _ _).isInfix).trans ((List.drop_suffix _ _).isInfix))
    | (subst h; exact (List.drop_suffix _ _).isInfix)

/-- An extent satisfied by no media-data box makes the scan fail with the
exact data error of the source. -/
theorem scanMdats_no_cover (e : ExtentRange) (mdats : List MediaDataBox)
    (h : ∀ m ∈ mdats, matches_extent m e = false ∧ contains_extent m e = false) :
    ∀ buf, scanMdats e buf mdats =
      .error (.invalidData "iloc contains an extent that is not in mdat") := by
  induction mdats with
  | nil => intro _; rfl
  | cons m ms ih =>
    intro buf
    obtain ⟨h1, h2⟩ := h m (List.mem_cons_self m ms)
    unfold scanMdats
    simp only [h1, h2, Bool.false_eq_true, if_false]
    rw [ih (fun m hm => h m (List.mem_cons_of_mem _ hm)) buf]
    rfl

/-- When the first satisfying media-data box does not exactly match the
extent, the scan copies the designated range and leaves the boxes
unchanged. -/
theorem scanMdats_contains (e : ExtentRange) (mdats : List MediaDataBox)
    (m : MediaDataBox) (bs : List Nat)
    (hfind : mdats.find? (fun m => matches_extent m e || contains_extent m e) = some m)
    (hnm : matches_extent m e = false)
    (hread : readExtentBytes m e = .ok bs) :
    ∀ buf, scanMdats e buf mdats = .ok (mdats, buf ++ bs) := by
  induction mdats with
  | nil => cases hfind
  | cons m0 ms ih =>
    intro buf
    rw [List.find?_cons] at hfind
    by_cases hp : (matches_extent m0 e || contains_extent m0 e) = true
    · rw [hp] at hfind
      injection hfind with hfind
      subst hfind
      have hc : contains_extent m0 e = true := by
        rcases Bool.or_eq_true_iff.mp hp with hx | hx
        · rw [hnm] at hx
          cases hx
        · exact hx
      unfold scanMdats
      simp only [hnm, hc, Bool.false_eq_true, if_false, if_true]
      unfold read_extent
      simp [hread, bind, Except.bind]
    · rw [Bool.not_eq_true] at hp
      rw [hp] at hfind
      obtain ⟨h1, h2⟩ := Bool.or_eq_false_iff.mp hp
      unfold scanMdats
      simp only [h1, h2, Bool.false_eq_true, if_false]
      rw [ih hfind buf]
      rfl

/-- Under the copy path, the extracted bytes agree with the spec-side
"bytes the extent designates in the original file". -/
theorem specDesignatedBytes_eq (mdats : List MediaDataBox) (e : ExtentRange)
    (m : MediaDataBox) (bs : List Nat)
    (hfind : mdats.find? (fun m => matches_extent m e || contains_extent m e) = some m)
    (hread : readExtentBytes m e = .ok bs) :
    specDesignatedBytes mdats e = some bs := by
  cases e with
  | WithLength s t =>
    unfold readExtentBytes at hread
    dsimp only [ExtentRange.start] at hread
    unfold specDesignatedBytes
    rw [hfind]
    dsimp only
    split at hread
    · simp at hread
    · rename_i hlt
      split at hread
      · simp at hread
      · rename_i hts
        split at hread
        · simp at hread
        · rename_i hov
          split at hread
          · rename_i hlen
            injection hread with hread
            rw [if_pos (show m.offset ≤ s ∧ t - m.offset ≤ m.data.length by
              constructor <;> omega)]
            rw [hread]
          · simp at hread
  | ToEnd s =>
    unfold readExtentBytes at hread
    dsimp only [ExtentRange.start] at hread
    unfold specDesignatedBytes
    rw [hfind]
    dsimp only
    split at hread
    · simp at hread
    · rename_i hlt
      split at hread
      · rename_i hlen
        injection hread with hread
        rw [if_pos (show m.offset ≤ s ∧ s - m.offset ≤ m.data.length by
          constructor <;> omega)]
        rw [hread]
      · simp at hread

/-- `read_bit_depth` only produces 8, 10 or 12. -/
theorem read_bit_depth_mem (p : Nat) (hb : Bool) (b : Bits) (v : Nat × Bits)
    (h : read_bit_depth p hb b = .ok v) : v.1 = 8 ∨ v.1 = 10 ∨ v.1 = 12 := by
  unfold read_bit_depth at h
  by_cases hc : p = 2 ∧ hb = true
  · rw [if_pos hc] at h
    obtain ⟨vt, ht, h⟩ := except_bind_ok _ _ _ h
    have hv := Except.ok.inj h
    rw [← hv]
    dsimp only
    split <;> simp
  · rw [if_neg hc] at h
    have hv := Except.ok.inj h
    rw [← hv]
    dsimp only
    split <;> simp

/-- `color_config_tail` passes the given bit depth through unchanged. -/
theorem color_config_tail_depth (p d : Nat) (mono : Bool) (cp tc mc : Nat) (b : Bits)
    (cc : ColorConfig) (b' : Bits)
    (h : color_config_tail p d mono cp tc mc b = .ok (cc, b')) : cc.bit_depth = d := by
  unfold color_config_tail at h
  by_cases hm : mono = true
  · rw [if_pos hm] at h
    obtain ⟨vr, hr, h⟩ := except_bind_ok _ _ _ h
    try dsimp only at h
    have hinj := congrArg Prod.fst (Except.ok.inj h)
    try dsimp only at hinj
    rw [← hinj]
  · rw [if_neg hm] at h
    by_cases hs : cp = 1 ∧ tc = 13 ∧ mc = 0
    · rw [if_pos hs] at h
      have hinj := congrArg Prod.fst (Except.ok.inj h)
      try dsimp only at hinj
      rw [← hinj]
    · rw [if_neg hs] at h
      obtain ⟨vr, hr, h⟩ := except_bind_ok _ _ _ h
      try dsimp only at h
      obtain ⟨vss, hss, h⟩ := except_bind_ok _ _ _ h
      try dsimp only at h
      obtain ⟨vcsp, hcsp, h⟩ := except_bind_ok _ _ _ h
      try dsimp only at h
      obtain ⟨vsep, hsep, h⟩ := except_bind_ok _ _ _ h
      try dsimp only at h
      have hinj := congrArg Prod.fst (Except.ok.inj h)
      try dsimp only at hinj
      rw [← hinj]

/-- `color_config` only produces bit depths 8, 10 or 12. -/
theorem color_config_bit_depth (b : Bits) (p : Nat) (cc : ColorConfig) (b' : Bits)
    (h : color_config b p = .ok (cc, b')) :
    cc.bit_depth = 8 ∨ cc.bit_depth = 10 ∨ cc.bit_depth = 12 := by
  unfold color_config at h
  obtain ⟨vh, hh, h⟩ := except_bind_ok _ _ _ h
  try dsimp only at h
  obtain ⟨vd, hd, h⟩ := except_bind_ok _ _ _ h
  try dsimp only at h
  obtain ⟨vm, hm, h⟩ := except_bind_ok _ _ _ h
  try dsimp only at h
  obtain ⟨vc, hc, h⟩ := except_bind_ok _ _ _ h
  try dsimp only at h
  rw [color_config_tail_depth _ _ _ _ _ _ _ _ _ h]
  exact read_bit_depth_mem _ _ _ _ hd

theorem filterMap_head_isSome {α β : Type} (f : α → Option β) (l : List α)
    (h : ∃ a ∈ l, (f a).isSome = true) : ((l.filterMap f).head?).isSome = true := by
  induction l with
  | nil =>
    rcases h with ⟨a, ha, _⟩
    cases ha
  | cons x xs ih =>
    rw [List.filterMap_cons]
    cases hf : f x with
    | some b => simp
    | none =>
      rcases h with ⟨a, ha, hsome⟩
      rcases List.mem_cons.mp ha with rfl | htail
      · rw [hf] at hsome
        cases hsome
      · exact ih ⟨a, htail, hsome⟩

theorem filterMap_head_none {α β : Type} (f : α → Option β) (l : List α)
    (h : ∀ a ∈ l, f a = none) : (l.filterMap f).head? = none := by
  induction l with
  | nil => rfl
  | cons x xs ih =>
    rw [List.filterMap_cons, h x (List.mem_cons_self x xs)]
    exact ih (fun a ha => h a (List.mem_cons_of_mem _ ha))

/-! ## Claim theorems -/

/-- C1: the result's HDR metadata records have the claimed shape — the
content-light-level record holds two 16-bit values, the mastering-display
record three 16-bit chromaticity pairs, a 16-bit white point pair and two
32-bit luminance values — and a primary item carrying only a
content-light-level property resolves to a populated content-light-level
record and no mastering-display record, symmetrically for a
mastering-display-only item. (The clli/mdcv code is absent from src/, so
the records and their resolution are modelled from the spec.) -/
theorem hdr_metadata_records :
    (∀ s c, read_clli s = .ok c →
      c.max_content_light_level < 2 ^ 16 ∧ c.max_pic_average_light_level < 2 ^ 16) ∧
    (∀ s mv, read_mdcv s = .ok mv →
      (mv.primaries.1.1 < 2 ^ 16 ∧ mv.primaries.1.2 < 2 ^ 16 ∧
       mv.primaries.2.1.1 < 2 ^ 16 ∧ mv.primaries.2.1.2 < 2 ^ 16 ∧
       mv.primaries.2.2.1 < 2 ^ 16 ∧ mv.primaries.2.2.2 < 2 ^ 16) ∧
      (mv.white_point.1 < 2 ^ 16 ∧ mv.white_point.2 < 2 ^ 16) ∧
      mv.max_luminance < 2 ^ 32 ∧ mv.min_luminance < 2 ^ 32) ∧
    (∀ props pid, (∃ p ∈ props, p.item_id = pid ∧ (p.property.clliValue).isSome = true) →
      (∀ p ∈ props, p.item_id = pid → p.property.mdcvValue = none) →
      ((resolve_hdr props pid).1).isSome = true ∧ (resolve_hdr props pid).2 = none) ∧
    (∀ props pid, (∃ p ∈ props, p.item_id = pid ∧ (p.property.mdcvValue).isSome = true) →
      (∀ p ∈ props, p.item_id = pid → p.property.clliValue = none) →
      ((resolve_hdr props pid).2).isSome = true ∧ (resolve_hdr props pid).1 = none) := by
  refine ⟨?_, ?_, ?_, ?_⟩
  · intro s c h
    unfold read_clli at h
    obtain ⟨v1, h1, h⟩ := except_bind_ok _ _ _ h
    try dsimp only at h
    obtain ⟨v2, h2, h⟩ := except_bind_ok _ _ _ h
    try dsimp only at h
    have hc := Except.ok.inj h
    rw [← hc]
    exact ⟨be_u16_lt _ _ _ h1, be_u16_lt _ _ _ h2⟩
  · intro s mv h
    unfold read_mdcv at h
    obtain ⟨v1, h1, h⟩ := except_bind_ok _ _ _ h
    try dsimp only at h
    obtain ⟨v2, h2, h⟩ := except_bind_ok _ _ _ h
    try dsimp only at h
    obtain ⟨v3, h3, h⟩ := except_bind_ok _ _ _ h
    try dsimp only at h
    obtain ⟨v4, h4, h⟩ := except_bind_ok _ _ _ h
    try dsimp only at h
    obtain ⟨v5, h5, h⟩ := except_bind_ok _ _ _ h
    try dsimp only at h
    obtain ⟨v6, h6, h⟩ := except_bind_ok _ _ _ h
    try dsimp only at h
    obtain ⟨v7, h7, h⟩ := except_bind_ok _ _ _ h
    try dsimp only at h
    obtain ⟨v8, h8, h⟩ := except_bind_ok _ _ _ h
    try dsimp only at h
    obtain ⟨v9, h9, h⟩ := except_bind_ok _ _ _ h
    try dsimp only at h
    obtain ⟨v10, h10, h⟩ := except_bind_ok _ _ _ h
    try dsimp only at h
    have hc := Except.ok.inj h
    rw [← hc]
    exact ⟨⟨be_u16_lt _ _ _ h1, be_u16_lt _ _ _ h2, be_u16_lt _ _ _ h3,
            be_u16_lt _ _ _ h4, be_u16_lt _ _ _ h5, be_u16_lt _ _ _ h6⟩,
           ⟨be_u16_lt _ _ _ h7, be_u16_lt _ _ _ h8⟩,
           be_u32_lt _ _ _ h9, be_u32_lt _ _ _ h10⟩
  · intro props pid hsome hnone
    constructor
    · apply filterMap_head_isSome
      rcases hsome with ⟨p, hp, hid, hs⟩
      refine ⟨p, hp, ?_⟩
      rw [if_pos hid]
      exact hs
    · apply filterMap_head_none
      intro p hp
      by_cases hid : p.item_id = pid
      · rw [if_pos hid]
        exact hnone p hp hid
      · rw [if_neg hid]
  · intro props pid hsome hnone
    constructor
    · apply filterMap_head_isSome
      rcases hsome with ⟨p, hp, hid, hs⟩
      refine ⟨p, hp, ?_⟩
      rw [if_pos hid]
      exact hs
    · apply filterMap_head_none
      intro p hp
      by_cases hid : p.item_id = pid
      · rw [if_pos hid]
        exact hnone p hp hid
      · rw [if_neg hid]

/-- C1 witness: a concrete clli payload parses to (1000, 400) within the
16-bit bounds, and a primary item carrying only a clli property resolves to
a populated content-light-level record and no mastering-display record. -/
theorem hdr_metadata_records_witness :
    ((⟨1000, 400⟩ : ContentLightLevel).max_content_light_level < 2 ^ 16 ∧
     (⟨1000, 400⟩ : ContentLightLevel).max_pic_average_light_level < 2 ^ 16) ∧
    ((resolve_hdr [⟨1, .clli ⟨1000, 400⟩⟩] 1).1).isSome = true ∧
    (resolve_hdr [⟨1, .clli ⟨1000, 400⟩⟩] 1).2 = none :=
  ⟨hdr_metadata_records.1 ⟨4, [3, 232, 1, 144]⟩ ⟨1000, 400⟩ (by decide),
   hdr_metadata_records.2.2.1 [⟨1, .clli ⟨1000, 400⟩⟩] 1
     ⟨⟨1, .clli ⟨1000, 400⟩⟩, by decide, by decide, by decide⟩
     (by decide)⟩

/-- C2 (amended): `next_box` reports end of input (`ok none`), never a
truncation error, whenever the box header is cut short — any stream shorter
than the 8-byte short header, and any stream announcing the 16-byte large
header but shorter than 16 bytes; zero available header bytes yields the
same `ok none`, so truncation and clean end of input are not
distinguished. -/
theorem next_box_short_header_end_of_input :
    (∀ bs : List Nat, bs.length < 8 → next_box (ofBytes bs) = .ok none) ∧
    (∀ bs : List Nat, 8 ≤ bs.length → bs.length < 16 → bs.take 4 = [0, 0, 0, 1] →
      next_box (ofBytes bs) = .ok none) := by
  constructor
  · intro bs h
    unfold next_box read_box_header be_u32 readBytes ofBytes
    by_cases h4 : 4 ≤ bs.length
    · have h4' : ¬ (4 ≤ bs.length - 4) := by omega
      simp [h4, Bind.bind, Except.bind, List.length_drop, h4']
    · simp [h4, Bind.bind, Except.bind]
  · intro bs h8 hlen htake
    unfold next_box read_box_header be_u32 be_u64 readBytes ofBytes
    have h4 : 4 ≤ bs.length := by omega
    have h4' : 4 ≤ bs.length - 4 := by omega
    have h8' : ¬ (8 ≤ bs.length - 4 - 4) := by omega
    simp [h4, h4', h8', Bind.bind, Except.bind, List.length_drop, htake, beVal]

/-- C2 witness: a one-byte stream and an 8-byte stream announcing a large
header both make `next_box` report end of input. -/
theorem next_box_short_header_end_of_input_witness :
    next_box (ofBytes [0]) = .ok none ∧
    next_box (ofBytes [0, 0, 0, 1, 0, 0, 0, 0]) = .ok none :=
  ⟨next_box_short_header_end_of_input.1 [0] (by decide),
   next_box_short_header_end_of_input.2 [0, 0, 0, 1, 0, 0, 0, 0]
     (by decide) (by decide) (by decide)⟩

/-- C2 counterexample: a two-byte stream is a box header cut short (at
least one but fewer than a header's worth of bytes), yet `next_box` returns
the end-of-input value `ok none` — a success, not the truncation error the
claim requires. -/
theorem next_box_short_header_counterexample :
    next_box (ofBytes [0, 0]) = Except.ok Option.none ∧
    resultIsOk (next_box (ofBytes [0, 0])) = true := by
  constructor <;> decide

/-- C3 (amended): a primary/alpha iloc entry whose construction method is
not file-stored makes `read_avif` fail — but with the `Unsupported` error
kind ("unsupported construction_method"), not the `InvalidData` ("data
error") kind the claim states: that exact error when such an entry is the
first relevant one, and no successful result in any case. -/
theorem construction_method_unsupported_error :
    (∀ meta mdats loc,
      meta.iloc_items.find? (fun l => l.item_id == meta.primary_item_id ||
        alpha_item_id meta == some l.item_id) = some loc →
      loc.construction_method ≠ ConstructionMethod.File →
      read_avif_resolve meta mdats =
        .error (.unsupported "unsupported construction_method")) ∧
    (∀ meta mdats loc, loc ∈ meta.iloc_items →
      (loc.item_id = meta.primary_item_id ∨ alpha_item_id meta = some loc.item_id) →
      loc.construction_method ≠ ConstructionMethod.File →
      ∀ d, read_avif_resolve meta mdats ≠ .ok d) := by
  constructor
  · intro meta mdats loc hfind hcm
    unfold read_avif_resolve
    rw [loadItems_first_relevant_bad _ _ _ _ hfind hcm]
    rfl
  · intro meta mdats loc hmem hrel hcm d hok
    unfold read_avif_resolve at hok
    obtain ⟨v, hv, _⟩ := except_bind_ok _ _ _ hok
    exact loadItems_relevant_bad_no_ok _ _ _ _ hmem hrel hcm _ _ _ _ hv

/-- C3 witness: a primary item stored with the item-data-box method fails
with the unsupported error. -/
theorem construction_method_unsupported_error_witness :
    read_avif_resolve idatMeta [] =
      .error (.unsupported "unsupported construction_method") :=
  construction_method_unsupported_error.1 idatMeta []
    ⟨1, .Idat, [⟨.WithLength 0 1⟩]⟩ (by decide) (by decide)

/-- C3 counterexample: on a primary item stored with the item-data-box
method, `read_avif` fails with `Unsupported`, which is not the
`InvalidData` ("data error") kind the claim states. -/
theorem construction_method_error_kind_counterexample :
    read_avif_resolve idatMeta [] =
      .error (.unsupported "unsupported construction_method") ∧
    failedUnsupported (read_avif_resolve idatMeta []) = true ∧
    Error.isInvalidData (.unsupported "unsupported construction_method") = false := by
  refine ⟨by decide, by decide, by decide⟩

/-- C4 (code bug): the claim — no data-dependent assertion is reachable —
fails on the code. A pixi property declaring 17 channels drives the
`debug_assert_eq!(num_channels, channels.len())` in `read_pixi` to compare
17 with the capacity-capped 16, so the assert condition is false and a
debug build aborts on attacker-controlled input; a release build returns a
data error instead. -/
theorem read_pixi_debug_assert_data_dependent :
    read_pixi_debug_assert pixiStream17 = some false ∧
    read_pixi pixiStream17 =
      .error (.invalidData "unread box content or bad parser sync") := by
  constructor <;> decide

/-- C5 (amended): when every extent of an item resolves through the copy
path — the first media-data box that matches or contains it does not match
it exactly, so its bytes are copied rather than moved — the assembled
buffer equals the concatenation, in extent declaration order, of the bytes
each extent designates in the original file, and the media-data boxes are
left unchanged. As stated (allowing extents that exactly match a media-data
box that other extents also draw from) the claim is false: the exact-match
path moves the box's bytes out, see the counterexample. -/
theorem extent_concatenation_contained (mdats : List MediaDataBox) :
    ∀ (extents : List ItemLocationBoxExtent) (buf : List Nat),
    (∀ e ∈ extents, containedResolvable mdats e.extent_range = true) →
    assembleExtents buf mdats extents =
      .ok (mdats, buf ++
        (extents.map
          (fun e => (specDesignatedBytes mdats e.extent_range).getD [])).flatten) := by
  intro extents
  induction extents with
  | nil =>
    intro buf _
    simp [assembleExtents]
  | cons e es ih =>
    intro buf h
    have he := h e (List.mem_cons_self e es)
    unfold containedResolvable at he
    rcases hfind : mdats.find?
        (fun m => matches_extent m e.extent_range || contains_extent m e.extent_range)
      with _ | m
    · rw [hfind] at he
      cases he
    · rw [hfind] at he
      obtain ⟨hnm', hok'⟩ := Bool.and_eq_true_iff.mp he
      have hnm : matches_extent m e.extent_range = false := by
        rcases hb : matches_extent m e.extent_range
        · rfl
        · rw [hb] at hnm'
          cases hnm'
      obtain ⟨bs, hread⟩ : ∃ bs, readExtentBytes m e.extent_range = .ok bs := by
        rcases hr : readExtentBytes m e.extent_range with err | bs
        · unfold resultIsOk at hok'
          rw [hr] at hok'
          cases hok'
        · exact ⟨bs, rfl⟩
      unfold assembleExtents
      rw [scanMdats_contains e.extent_range mdats m bs hfind hnm hread buf]
      simp only [bind, Except.bind]
      rw [ih (buf ++ bs) (fun x hx => h x (List.mem_cons_of_mem _ hx))]
      simp [specDesignatedBytes_eq mdats e.extent_range m bs hfind hread, List.append_assoc]

/-- C5 witness: an item split across two contained extents of one
media-data box assembles to the two designated slices in declaration
order. -/
theorem extent_concatenation_contained_witness :
    assembleExtents [] [⟨100, [1, 2, 3, 4]⟩]
      [⟨.WithLength 100 102⟩, ⟨.WithLength 102 104⟩] =
      .ok ([⟨100, [1, 2, 3, 4]⟩], [] ++
        (([⟨.WithLength 100 102⟩, ⟨.WithLength 102 104⟩] : List ItemLocationBoxExtent).map
          (fun e => (specDesignatedBytes [⟨100, [1, 2, 3, 4]⟩] e.extent_range).getD
            [])).flatten) :=
  extent_concatenation_contained [⟨100, [1, 2, 3, 4]⟩]
    [⟨.WithLength 100 102⟩, ⟨.WithLength 102 104⟩] [] (by decide)

/-- C5 counterexample: both extents of the primary item are satisfiable by
the single media-data box of the original file (each exactly matches it),
the concatenation of the bytes they designate is `[1,2,3,1,2,3]`, yet
`read_avif` succeeds with the primary buffer `[1,2,3]` — the first extent
moves the box's bytes out and the second appends the now-empty box. -/
theorem extent_concatenation_counterexample :
    (dupExtents.all (fun e => dupMdats.any (fun m =>
       matches_extent m e.extent_range || contains_extent m e.extent_range))) = true ∧
    read_avif_resolve dupMeta dupMdats = .ok ⟨[1, 2, 3], none, false⟩ ∧
    (dupExtents.map
      (fun e => (specDesignatedBytes dupMdats e.extent_range).getD [])).flatten =
      [1, 2, 3, 1, 2, 3] ∧
    ([1, 2, 3] : List Nat) ≠ [1, 2, 3, 1, 2, 3] := by
  refine ⟨by decide, by decide, by decide, by decide⟩

/-- C6: an iloc extent whose computed start or end overflows 64 bits is a
data error inside `read_iloc` (so every extent `read_iloc` returns is
within u64 bounds), a successfully copied extent is always a contiguous
slice of its media-data box (never an out-of-bounds read), and an extent
not covered by any media-data box is the exact "not in mdat" data error. -/
theorem iloc_extent_overflow_and_bounds :
    (∀ base off len : Nat, 2 ^ 64 ≤ base + off →
      mkExtentRange base off len = .error (.invalidData "offset calculation overflow")) ∧
    (∀ base off len : Nat, base + off < 2 ^ 64 → len ≠ 0 → 2 ^ 64 ≤ base + off + len →
      mkExtentRange base off len = .error (.invalidData "end calculation overflow")) ∧
    (∀ s items, read_iloc s = .ok items →
      ∀ item ∈ items, ∀ x ∈ item.extents, extentWithinU64 x.extent_range = true) ∧
    (∀ m e bs, readExtentBytes m e = .ok bs → List.IsInfix bs m.data) ∧
    (∀ e buf mdats,
      (∀ m ∈ mdats, matches_extent m e = false ∧ contains_extent m e = false) →
      scanMdats e buf mdats =
        .error (.invalidData "iloc contains an extent that is not in mdat")) := by
  refine ⟨?_, ?_, read_iloc_bounded, readExtentBytes_infix, ?_⟩
  · intro base off len h
    unfold mkExtentRange
    rw [if_pos h]
  · intro base off len h1 h2 h3
    unfold mkExtentRange
    rw [if_neg (by omega), if_neg h2, if_pos h3]
  · intro e buf mdats h
    exact scanMdats_no_cover e mdats h buf

set_option maxRecDepth 4000 in
/-- C6 witness: concrete instances — an overflowing offset, an overflowing
end, a parsed iloc whose extent is in bounds, an in-bounds slice, and an
uncovered extent. -/
theorem iloc_extent_overflow_and_bounds_witness :
    mkExtentRange (2 ^ 63) (2 ^ 63) 0 =
      .error (.invalidData "offset calculation overflow") ∧
    mkExtentRange 0 1 (2 ^ 64) =
      .error (.invalidData "end calculation overflow") ∧
    extentWithinU64 (ExtentRange.WithLength 0 5) = true ∧
    List.IsInfix [2, 3] [1, 2, 3] ∧
    scanMdats (.ToEnd 0) [] [⟨100, [1]⟩] =
      .error (.invalidData "iloc contains an extent that is not in mdat") := by
  refine ⟨iloc_extent_overflow_and_bounds.1 (2 ^ 63) (2 ^ 63) 0 (by norm_num),
          iloc_extent_overflow_and_bounds.2.1 0 1 (2 ^ 64) (by norm_num) (by norm_num)
            (by norm_num),
          iloc_extent_overflow_and_bounds.2.2.1 ilocWitnessStream
            [⟨1, .Idat, [⟨.WithLength 0 5⟩]⟩] (by decide)
            ⟨1, .Idat, [⟨.WithLength 0 5⟩]⟩ (by decide) ⟨.WithLength 0 5⟩ (by decide),
          iloc_extent_overflow_and_bounds.2.2.2.1 ⟨100, [1, 2, 3]⟩ (.ToEnd 101) [2, 3]
            (by decide),
          iloc_extent_overflow_and_bounds.2.2.2.2 (.ToEnd 0) [] [⟨100, [1]⟩]
            (by decide)⟩

/-- C7 (amended): once the first box's header is read, a non-ftyp first
box is the exact "must occur first" data error; when the ftyp box body
itself parses, a major brand that is neither "avif" nor "avis" is the
"must be 'avif'" data error and the brand "avis" is the distinguishable
unsupported error. As stated the claim is false: a malformed ftyp body can
fail with a data error before the brand check even when the major brand is
"avis", see the counterexample. -/
theorem ftyp_brand_checks :
    (∀ bytes h content rest, next_box (ofBytes bytes) = .ok (some (h, content, rest)) →
      h.name ≠ ftypTag →
      read_avif_ftyp_stage bytes = .error (.invalidData "'ftyp' box must occur first")) ∧
    (∀ bytes h content rest ft, next_box (ofBytes bytes) = .ok (some (h, content, rest)) →
      h.name = ftypTag → read_ftyp content = .ok ft →
      ft.major_brand ≠ avifTag → ft.major_brand ≠ avisTag →
      read_avif_ftyp_stage bytes = .error (.invalidData "ftyp must be 'avif'")) ∧
    (∀ bytes h content rest ft, next_box (ofBytes bytes) = .ok (some (h, content, rest)) →
      h.name = ftypTag → read_ftyp content = .ok ft →
      ft.major_brand = avisTag →
      read_avif_ftyp_stage bytes =
        .error (.unsupported
          "Animated AVIF is not supported. Please use real AV1 videos instead.")) := by
  refine ⟨?_, ?_, ?_⟩
  · intro bytes h content rest hnb hname
    unfold read_avif_ftyp_stage
    simp [hnb, Bind.bind, Except.bind, hname]
  · intro bytes h content rest ft hnb hname hft hmaj hmaj2
    unfold read_avif_ftyp_stage
    simp [hnb, Bind.bind, Except.bind, hname, hft, hmaj, hmaj2]
  · intro bytes h content rest ft hnb hname hft hmaj
    unfold read_avif_ftyp_stage
    simp [hnb, Bind.bind, Except.bind, hname, hft, hmaj, avisTag, avifTag]

/-- C7 witness: a non-ftyp first box, a well-formed ftyp with brand "abcd",
and a well-formed ftyp with brand "avis" produce the three claimed
errors. -/
theorem ftyp_brand_checks_witness :
    read_avif_ftyp_stage notFtypBytes =
      .error (.invalidData "'ftyp' box must occur first") ∧
    read_avif_ftyp_stage badBrandBytes = .error (.invalidData "ftyp must be 'avif'") ∧
    read_avif_ftyp_stage avisBytes =
      .error (.unsupported
        "Animated AVIF is not supported. Please use real AV1 videos instead.") :=
  ⟨ftyp_brand_checks.1 notFtypBytes ⟨0x61626364, 8, 8, none⟩ ⟨0, []⟩ ⟨0, []⟩
     (by decide) (by decide),
   ftyp_brand_checks.2.1 badBrandBytes ⟨ftypTag, 16, 8, none⟩
     ⟨8, [0x61, 0x62, 0x63, 0x64, 0, 0, 0, 0]⟩ ⟨0, []⟩ ⟨0x61626364, 0, []⟩
     (by decide) (by decide) (by decide) (by decide) (by decide),
   ftyp_brand_checks.2.2 avisBytes ⟨ftypTag, 16, 8, none⟩
     ⟨8, [0x61, 0x76, 0x69, 0x73, 0, 0, 0, 0]⟩ ⟨0, []⟩ ⟨avisTag, 0, []⟩
     (by decide) (by decide) (by decide) (by decide)⟩

/-- C7 counterexample: an input whose ftyp major brand is "avis" but whose
brand area is one byte short of a multiple of four fails with the
`InvalidData` "invalid ftyp size" error, not the unsupported error the
claim requires for every avis input. -/
theorem ftyp_avis_error_kind_counterexample :
    read_avif_ftyp_stage avisBadFtypBytes = .error (.invalidData "invalid ftyp size") ∧
    failedUnsupported (read_avif_ftyp_stage avisBadFtypBytes) = false := by
  constructor <;> decide

/-- C8: whenever the sequence-header parser returns successfully, the
frame dimensions are at least 1, the bit depth is 8, 10 or 12, and the
profile is at most 2. -/
theorem sequence_header_field_ranges (data : List Nat) (h : SequenceHeaderObu)
    (hok : SequenceHeaderObu.read data = .ok h) :
    1 ≤ h.max_frame_width ∧ 1 ≤ h.max_frame_height ∧
    (h.color.bit_depth = 8 ∨ h.color.bit_depth = 10 ∨ h.color.bit_depth = 12) ∧
    h.seq_profile ≤ 2 := by
  unfold SequenceHeaderObu.read at hok
  obtain ⟨v1, h1, hok⟩ := except_bind_ok _ _ _ hok
  try dsimp only at hok
  by_cases hsp : v1.1 > 2
  · rw [if_pos hsp] at hok
    exact Except.noConfusion hok
  rw [if_neg hsp] at hok
  obtain ⟨v2, h2, hok⟩ := except_bind_ok _ _ _ hok
  try dsimp only at hok
  obtain ⟨v3, h3, hok⟩ := except_bind_ok _ _ _ hok
  try dsimp only at hok
  obtain ⟨v4, h4, hok⟩ := except_bind_ok _ _ _ hok
  try dsimp only at hok
  obtain ⟨v5, h5, hok⟩ := except_bind_ok _ _ _ hok
  try dsimp only at hok
  obtain ⟨v6, h6, hok⟩ := except_bind_ok _ _ _ hok
  try dsimp only at hok
  obtain ⟨v7, h7, hok⟩ := except_bind_ok _ _ _ hok
  try dsimp only at hok
  obtain ⟨v8, h8, hok⟩ := except_bind_ok _ _ _ hok
  try dsimp only at hok
  obtain ⟨v9, h9, hok⟩ := except_bind_ok _ _ _ hok
  try dsimp only at hok
  obtain ⟨v10, h10, hok⟩ := except_bind_ok _ _ _ hok
  try dsimp only at hok
  obtain ⟨v11, h11, hok⟩ := except_bind_ok _ _ _ hok
  try dsimp only at hok
  obtain ⟨v12, h12, hok⟩ := except_bind_ok _ _ _ hok
  try dsimp only at hok
  obtain ⟨v13, h13, hok⟩ := except_bind_ok _ _ _ hok
  try dsimp only at hok
  obtain ⟨v14, h14, hok⟩ := except_bind_ok _ _ _ hok
  try dsimp only at hok
  obtain ⟨v15, h15, hok⟩ := except_bind_ok _ _ _ hok
  try dsimp only at hok
  obtain ⟨v16, h16, hok⟩ := except_bind_ok _ _ _ hok
  try dsimp only at hok
  obtain ⟨v17, h17, hok⟩ := except_bind_ok _ _ _ hok
  try dsimp only at hok
  obtain ⟨v18, h18, hok⟩ := except_bind_ok _ _ _ hok
  try dsimp only at hok
  have hrec := Except.ok.inj hok
  rw [← hrec]
  dsimp only
  refine ⟨by omega, by omega, ?_, by omega⟩
  exact color_config_bit_depth _ _ _ _ h17

/-- C8 witness: a concrete reduced-still-picture sequence header parses
successfully and its fields satisfy the claimed ranges. -/
theorem sequence_header_field_ranges_witness :
    1 ≤ seqHeaderWitnessValue.max_frame_width ∧
    1 ≤ seqHeaderWitnessValue.max_frame_height ∧
    (seqHeaderWitnessValue.color.bit_depth = 8 ∨
     seqHeaderWitnessValue.color.bit_depth = 10 ∨
     seqHeaderWitnessValue.color.bit_depth = 12) ∧
    seqHeaderWitnessValue.seq_profile ≤ 2 :=
  sequence_header_field_ranges seqHeaderWitnessBytes seqHeaderWitnessValue (by decide)

/-- C9: on success of `read_avif`, the premultiplied-alpha flag is true
exactly when an alpha item was discovered and a "prem" reference runs from
the primary item to that alpha item; with no discovered alpha item the
flag is false. -/
theorem premultiplied_alpha_iff (meta : AvifInternalMeta) (mdats : List MediaDataBox)
    (d : AvifData) (hok : read_avif_resolve meta mdats = .ok d) :
    ((d.premultiplied_alpha = true) ↔
      ∃ aid, alpha_item_id meta = some aid ∧
        (meta.item_references.any (fun iref =>
          iref.from_item_id == meta.primary_item_id &&
          iref.to_item_id == aid &&
          iref.item_type == premTag)) = true) ∧
    (alpha_item_id meta = none → d.premultiplied_alpha = false) := by
  have hflag : d.premultiplied_alpha = premultiplied_alpha_flag meta := by
    unfold read_avif_resolve at hok
    rcases hld : loadItems meta.primary_item_id (alpha_item_id meta) meta.iloc_items [] none mdats
      with e | ⟨p, a, m⟩
    · rw [hld] at hok
      simp [bind, Except.bind] at hok
    · rw [hld] at hok
      simp only [bind, Except.bind, Except.ok.injEq] at hok
      rw [← hok]
  rw [hflag]
  constructor
  · cases halpha : alpha_item_id meta with
    | none => simp [premultiplied_alpha_flag, halpha]
    | some a => simp [premultiplied_alpha_flag, halpha]
  · intro hnone
    simp [premultiplied_alpha_flag, hnone]

/-- C9 witness: on the empty meta (no references, no alpha item) the
resolved flag is false and both sides of the equivalence hold trivially. -/
theorem premultiplied_alpha_iff_witness :
    (((⟨[], none, false⟩ : AvifData).premultiplied_alpha = true) ↔
      ∃ aid, alpha_item_id ⟨[], [], 1, []⟩ = some aid ∧
        ((⟨[], [], 1, []⟩ : AvifInternalMeta).item_references.any (fun iref =>
          iref.from_item_id == (⟨[], [], 1, []⟩ : AvifInternalMeta).primary_item_id &&
          iref.to_item_id == aid &&
          iref.item_type == premTag)) = true) ∧
    (alpha_item_id ⟨[], [], 1, []⟩ = none →
      (⟨[], none, false⟩ : AvifData).premultiplied_alpha = false) :=
  premultiplied_alpha_iff ⟨[], [], 1, []⟩ [] ⟨[], none, false⟩ (by decide)

/-- C10 (amended): the presence of an iloc entry for the primary item is
never checked — when no iloc entry belongs to the primary item or the
discovered alpha item, `read_avif` succeeds with an empty (zero-length)
primary buffer. As stated (only "no entry for the primary item") the claim
is false: an entry for the alpha item can still fail the parse, see the
counterexample. -/
theorem missing_primary_iloc_entry_success (meta : AvifInternalMeta)
    (mdats : List MediaDataBox)
    (h : ∀ loc ∈ meta.iloc_items,
      loc.item_id ≠ meta.primary_item_id ∧ alpha_item_id meta ≠ some loc.item_id) :
    read_avif_resolve meta mdats = .ok ⟨[], none, premultiplied_alpha_flag meta⟩ := by
  unfold read_avif_resolve
  rw [loadItems_skip_all meta.primary_item_id (alpha_item_id meta) meta.iloc_items h [] none mdats]
  rfl

/-- C10 witness: a meta whose only iloc entry names the unrelated item 2
parses to an empty primary buffer. -/
theorem missing_primary_iloc_entry_success_witness :
    read_avif_resolve noPrimaryEntryMeta [] =
      .ok ⟨[], none, premultiplied_alpha_flag noPrimaryEntryMeta⟩ :=
  missing_primary_iloc_entry_success noPrimaryEntryMeta [] (by decide)

/-- C10 counterexample: a meta whose item-location box has no entry for the
primary item (id 1) — only an item-data-box entry for the discovered alpha
item (id 2) — makes `read_avif` fail rather than succeed. -/
theorem missing_primary_iloc_entry_counterexample :
    (alphaIdatMeta.iloc_items.all
      (fun l => l.item_id != alphaIdatMeta.primary_item_id)) = true ∧
    alpha_item_id alphaIdatMeta = some 2 ∧
    read_avif_resolve alphaIdatMeta [] =
      .error (.unsupported "unsupported construction_method") := by
  refine ⟨by decide, by decide, by decide⟩

end Avif
